import Mathlib

/-!
Verification of the 8D problem-solving backend's validation-orchestration core.

This file shallowly embeds the data model and the operations of
`app/services/step_service.py`, `app/services/chatbot_service.py`,
`app/services/section_config.py` and `app/schemas/step_data.py` and proves the
spec's claims about them.

Modelling conventions:
* Python JSON values are the inductive `Json`; Python dicts appearing as JSON
  objects are association lists `List (String × Json)` (Python dicts have
  unique keys; `jLookup` returns the binding of the last occurrence, matching
  how a dict built by repeated assignment behaves when duplicates arise).
* Machine-level details that no claim touches are noted where they are
  simplified (see the comments on `pyStr`, `jsonParse` and the Pydantic model).
* Database state is explicit: a step row, its owning complaint's status (the
  report and complaint rows are assumed to exist, as every claim concerns a
  step created through the normal complaint-creation path), and the list of
  `step_validation` rows in insertion order.  An ORM query's `.first()` is the
  first matching element of that list.
-/

/-- JSON values as produced by Python's `json.loads`: `null`, booleans,
numbers (integers only; float literals are not needed by any claim and make
the model parser fail where `json.loads` would succeed — noted), strings,
arrays and objects. -/
inductive Json where
  | null : Json
  | bool : Bool → Json
  | num : Int → Json
  | str : String → Json
  | arr : List Json → Json
  | obj : List (String × Json) → Json

/-- Dict lookup: the binding of the last occurrence of the key, if any
(mirrors a Python dict built by inserting the pairs in order). -/
def jLookup : List (String × Json) → String → Option Json
  | [], _ => none
  | kv :: rest, k =>
    match jLookup rest k with
    | some v => some v
    | none => if kv.1 = k then some kv.2 else none

/-- Python truthiness on JSON values: `None`, `False`, `0`, `""`, `[]` and
`{}` are falsy, everything else truthy. -/
def jTruthy : Json → Bool
  | .null => false
  | .bool b => b
  | .num n => n ≠ 0
  | .str s => s ≠ ""
  | .arr xs => !xs.isEmpty
  | .obj kvs => !kvs.isEmpty

/-- Python's `str.strip()` (whitespace trim), implemented over the character
list so that kernel evaluation works on concrete inputs. -/
def pyStrip (s : String) : String :=
  (((s.toList.dropWhile Char.isWhitespace).reverse.dropWhile Char.isWhitespace).reverse).asString

/-- Python's `str.lower()`.  `Char.toLower` only lowercases ASCII; every
string a claim exercises is ASCII. -/
def pyLower (s : String) : String :=
  (s.toList.map Char.toLower).asString

/-- Python's `str(x)` for JSON-shaped values, used by the required-fields
pre-check via `str(r.get("action", "")).strip()`.  For lists and dicts the
exact `repr` text is abbreviated to a fixed non-empty placeholder: the source
only ever asks whether the stripped text is empty, and `repr` of a list or
dict is never whitespace-only, so truthiness agrees. -/
def pyStr : Json → String
  | .null => "None"
  | .bool true => "True"
  | .bool false => "False"
  | .num n => toString n
  | .str s => s
  | .arr _ => "[...]"
  | .obj _ => "\x7b...\x7d"

/-- Python `{**a, **b}` top-level dict merge: keys of `a` in order with values
overridden by `b` where present, then the keys of `b` not in `a`, in order. -/
def dictMerge (a b : List (String × Json)) : List (String × Json) :=
  (a.map (fun kv => (kv.1, (jLookup b kv.1).getD kv.2)))
    ++ b.filter (fun kv => (jLookup a kv.1).isNone)

/-- Python `dict.update` for the string-to-string improvement maps:
existing keys keep their position and take the new value, new keys are
appended in order. -/
def dictUpdateS (a b : List (String × String)) : List (String × String) :=
  (a.map (fun kv =>
    match (b.reverse.find? (fun kv2 => kv2.1 = kv.1)) with
    | some kv2 => (kv.1, kv2.2)
    | none => kv))
    ++ b.filter (fun kv => (a.find? (fun kv2 => kv2.1 = kv.1)).isNone)

-- ===================================================================
-- json.loads: a recursive-descent model of Python's JSON parser.
-- Unsupported corners, none reachable from any claim: float literals,
-- exponents, `\uXXXX` escapes (all make the model parser fail).
-- ===================================================================

/-- JSON whitespace (space, tab, line feed, carriage return). -/
def jsonWs (c : Char) : Bool :=
  ([' ', '\t', '\n', '\r'] : List Char).contains c

def skipWs (cs : List Char) : List Char :=
  cs.dropWhile jsonWs

/-- Escape table for JSON string literals (`\uXXXX` unsupported), as an
association list from escape letter to escaped character. -/
def jsonEscapePairs : List (Char × Char) :=
  [('"', '"'), ('\\', '\\'), ('/', '/'), ('n', '\n'), ('t', '\t'), ('r', '\r'),
   ('b', Char.ofNat 8), ('f', Char.ofNat 12)]

def jsonEscape (e : Char) : Option Char :=
  (jsonEscapePairs.find? (fun pr => pr.1 = e)).map (fun pr => pr.2)

/-- Parse the body of a JSON string literal after the opening quote.
Unescaped control characters are rejected, as by `json.loads` in strict
mode. -/
def pString (acc : List Char) : List Char → Option (String × List Char)
  | [] => none
  | '"' :: rest => some (acc.reverse.asString, rest)
  | '\\' :: e :: rest =>
    match jsonEscape e with
    | some c => pString (c :: acc) rest
    | none => none
  | '\\' :: [] => none
  | c :: rest =>
    if c.toNat < 32 then none else pString (c :: acc) rest

def digitVal (c : Char) : Nat := c.toNat - '0'.toNat

def pDigits (acc : Nat) : List Char → Nat × List Char
  | [] => (acc, [])
  | c :: rest =>
    if c.isDigit then pDigits (acc * 10 + digitVal c) rest else (acc, c :: rest)

/-- Parse a JSON integer (optional minus sign, digits).  A following `.`,
`e` or `E` signals a float literal, which the model does not support. -/
def pNumber (cs : List Char) : Option (Int × List Char) :=
  let (neg, cs1) := match cs with
    | '-' :: rest => (true, rest)
    | _ => (false, cs)
  match cs1 with
  | c :: _ =>
    if c.isDigit then
      let (n, rest) := pDigits 0 cs1
      match rest with
      | d :: _ => if d = '.' ∨ d = 'e' ∨ d = 'E' then none
                  else some (if neg then -(n : Int) else (n : Int), rest)
      | [] => some (if neg then -(n : Int) else (n : Int), rest)
    else none
  | [] => none

mutual

/-- Parse one JSON value (fuel-indexed; `jsonParse` supplies ample fuel). -/
def pVal (fuel : Nat) (cs : List Char) : Option (Json × List Char) :=
  match fuel with
  | 0 => none
  | fuel + 1 =>
    match skipWs cs with
    | 'n' :: 'u' :: 'l' :: 'l' :: rest => some (.null, rest)
    | 't' :: 'r' :: 'u' :: 'e' :: rest => some (.bool true, rest)
    | 'f' :: 'a' :: 'l' :: 's' :: 'e' :: rest => some (.bool false, rest)
    | '"' :: rest =>
      match pString [] rest with
      | some (s, rest2) => some (.str s, rest2)
      | none => none
    | '[' :: rest =>
      (match skipWs rest with
       | ']' :: rest2 => some (.arr [], rest2)
       | _ =>
         match pElems fuel rest with
         | some (xs, rest2) => some (.arr xs, rest2)
         | none => none)
    | '{' :: rest =>
      (match skipWs rest with
       | '}' :: rest2 => some (.obj [], rest2)
       | _ =>
         match pMembers fuel rest with
         | some (kvs, rest2) => some (.obj kvs, rest2)
         | none => none)
    | other =>
      match pNumber other with
      | some (n, rest) => some (.num n, rest)
      | none => none

/-- Parse array elements after `[` (at least one element). -/
def pElems (fuel : Nat) (cs : List Char) : Option (List Json × List Char) :=
  match fuel with
  | 0 => none
  | fuel + 1 =>
    match pVal fuel cs with
    | none => none
    | some (v, rest) =>
      match skipWs rest with
      | ',' :: rest2 =>
        (match pElems fuel rest2 with
         | some (xs, rest3) => some (v :: xs, rest3)
         | none => none)
      | ']' :: rest2 => some ([v], rest2)
      | _ => none

/-- Parse object members after `{` (at least one member). -/
def pMembers (fuel : Nat) (cs : List Char) : Option (List (String × Json) × List Char) :=
  match fuel with
  | 0 => none
  | fuel + 1 =>
    match skipWs cs with
    | '"' :: rest =>
      (match pString [] rest with
       | none => none
       | some (k, rest2) =>
         match skipWs rest2 with
         | ':' :: rest3 =>
           (match pVal fuel rest3 with
            | none => none
            | some (v, rest4) =>
              match skipWs rest4 with
              | ',' :: rest5 =>
                (match pMembers fuel rest5 with
                 | some (kvs, rest6) => some ((k, v) :: kvs, rest6)
                 | none => none)
              | '}' :: rest5 => some ([(k, v)], rest5)
              | _ => none)
         | _ => none)
    | _ => none

end

/-- `json.loads` over a character list: exactly one value, with leading and
trailing whitespace allowed, nothing else trailing. -/
def jsonParseL (cs : List Char) : Option Json :=
  match pVal (4 * cs.length + 8) cs with
  | some (v, rest) => if skipWs rest = [] then some v else none
  | none => none

/-- `json.loads` on a string. -/
def jsonParse (s : String) : Option Json :=
  jsonParseL s.toList

-- ===================================================================
-- ResponseParser (chatbot_service.py, class ResponseParser)
-- ===================================================================

/-- The Python exceptions the parser can raise.  `json.JSONDecodeError`
is a subclass of `ValueError` in Python; it is kept separate here so the
two raise sites stay distinguishable.  A non-dict JSON body makes
`data.get("decision")` raise `AttributeError` in the source. -/
inductive PyErr where
  | valueError : String → PyErr
  | jsonDecodeError : PyErr
  | attributeError : PyErr
deriving DecidableEq

/-- The normalized verdict dict returned by `ResponseParser.parse`.
`decision` is the validated string; every other field is whatever JSON
value the response carried, or the `data.get(...)` default. -/
structure Verdict where
  decision : String
  missing_fields : Json
  incomplete_fields : Json
  quality_issues : Json
  rules_violations : Json
  suggestions : Json
  field_improvements : Json
  overall_assessment : Json
  language_detected : Json

/-- `re.search(r"\{.*\}", ai_text, re.DOTALL)`: the match starts at the
first `{` that has some `}` after it, and the greedy `.*` extends the match
to the last `}` of the whole text. -/
def takeToLastRBrace (cs : List Char) : List Char :=
  ((cs.reverse.dropWhile (fun c => c ≠ '}')).reverse)

def extractSpan : List Char → Option (List Char)
  | [] => none
  | c :: rest =>
    if c = '{' ∧ rest.contains '}' then some (c :: takeToLastRBrace rest)
    else extractSpan rest

/-- `data.get(k)` on the parsed JSON object (last binding wins, as in the
dict `json.loads` builds). -/
def jObjGet (kvs : List (String × Json)) (k : String) : Option Json :=
  jLookup kvs k

/-- `data.get(k, default)`. -/
def jObjGetD (kvs : List (String × Json)) (k : String) (d : Json) : Json :=
  (jLookup kvs k).getD d

/-- `ResponseParser.parse` over a character list: direct `json.loads`, one
recovery attempt on the first `{...}` span, then validation of `decision`
and defaulting of all other fields. -/
def responseParseL (cs : List Char) : Except PyErr Verdict :=
  let dataE : Except PyErr Json :=
    match jsonParseL cs with
    | some v => .ok v
    | none =>
      match extractSpan cs with
      | none => .error (PyErr.valueError ("Invalid JSON returned by AI"))
      | some span =>
        match jsonParseL span with
        | some v => .ok v
        | none => .error PyErr.jsonDecodeError
  match dataE with
  | .error e => .error e
  | .ok (.obj kvs) =>
    match jObjGet kvs ("decision") with
    | some (.str d) =>
      if d = "pass" ∨ d = "fail" then
        .ok {
          decision := d
          missing_fields := jObjGetD kvs ("missing_fields") (.arr [])
          incomplete_fields := jObjGetD kvs ("incomplete_fields") (.arr [])
          quality_issues := jObjGetD kvs ("quality_issues") (.arr [])
          rules_violations := jObjGetD kvs ("rules_violations") (.arr [])
          suggestions := jObjGetD kvs ("suggestions") (.arr [])
          field_improvements := jObjGetD kvs ("field_improvements") (.obj [])
          overall_assessment := jObjGetD kvs ("overall_assessment") (.str (""))
          language_detected := jObjGetD kvs ("language_detected") (.str ("en"))
        }
      else .error (PyErr.valueError ("Invalid or missing decision field"))
    | _ => .error (PyErr.valueError ("Invalid or missing decision field"))
  | .ok _ => .error PyErr.attributeError

/-- `ResponseParser.parse` on the raw response string. -/
def responseParse (ai_text : String) : Except PyErr Verdict :=
  responseParseL ai_text.toList

example :
    jsonParse ("\x7b\"decision\": \"pass\"\x7d") = some (.obj [("decision", .str ("pass"))]) := by
  rfl

-- ===================================================================
-- D1 local validator (chatbot_service.py, class D1LocalValidator)
-- ===================================================================

/-- A D1 team-member record.  The source reads each field with
`member.get(field, "")`; a record field holding `""` subsumes a missing
dict key, and every value a claim exercises is a string. -/
structure TeamMember where
  name : String
  function : String
  department : String
  role : String
deriving DecidableEq

/-- A `team_members` list entry: `none` models a list element that is not
a dict (the source appends a "must be a dict/object" incompleteness and
skips the member). -/
abbrev D1Members := List (Option TeamMember)

/-- The fixed result shape `_build_result` produces; shared by the local
and model-backed validation paths. -/
structure ValidationResult where
  decision : String
  missing_fields : List String
  incomplete_fields : List String
  quality_issues : List String
  rules_violations : List String
  suggestions : List String
  field_improvements : List (String × String)
  overall_assessment : String
  language_detected : String
deriving DecidableEq

def VALID_ROLES : List String :=
  ["production", "maintenance", "engineering", "logistics", "team_leader", "other"]

/-- `', '.join(sorted(VALID_ROLES))`. -/
def validRolesJoined : String :=
  String.intercalate (", ")
    ["engineering", "logistics", "maintenance", "other", "production", "team_leader"]

def REQUIRED_MEMBER_FIELDS : List (String × (TeamMember → String)) :=
  [("name", TeamMember.name), ("function", TeamMember.function),
   ("department", TeamMember.department), ("role", TeamMember.role)]

/-- The mutable state of the member loop in `D1LocalValidator.validate`. -/
structure D1LoopState where
  idx : Nat
  incomplete_fields : List String
  quality_issues : List String
  field_improvements : List (String × String)
  seen_names : List String
  leader_count : Nat
deriving DecidableEq

/-- One iteration of the member loop. -/
def d1ProcessMember (st : D1LoopState) (m? : Option TeamMember) : D1LoopState :=
  let label := "Member #" ++ toString (st.idx + 1)
  match m? with
  | none =>
    { st with
        idx := st.idx + 1
        incomplete_fields := st.incomplete_fields ++ [label ++ ": must be a dict/object"] }
  | some m =>
    let incompleteAdds := REQUIRED_MEMBER_FIELDS.filterMap (fun fk =>
      if pyStrip (fk.2 m) = "" then
        some (label ++ ": \x27" ++ fk.1 ++ "\x27 is empty or missing")
      else none)
    let roleInvalid : Bool := m.role ≠ "" ∧ m.role ∉ VALID_ROLES
    let qualityRole := if roleInvalid then
        [label ++ ": role \x27" ++ m.role ++ "\x27 is invalid. Must be one of: " ++ validRolesJoined]
      else []
    let improvementAdds := if roleInvalid then
        [("member_" ++ toString (st.idx + 1) ++ "_role", "Use one of: " ++ validRolesJoined)]
      else []
    let leaderAdd := if m.role = "team_leader" then 1 else 0
    let nname := pyLower (pyStrip m.name)
    let dupHit : Bool := nname ≠ "" ∧ st.seen_names.contains nname
    let qualityDup := if dupHit then
        [label ++ ": duplicate name \x27" ++ m.name ++ "\x27 detected"]
      else []
    let seenAdd := if nname ≠ "" ∧ ¬ st.seen_names.contains nname then [nname] else []
    { idx := st.idx + 1
      incomplete_fields := st.incomplete_fields ++ incompleteAdds
      quality_issues := st.quality_issues ++ qualityRole ++ qualityDup
      field_improvements := st.field_improvements ++ improvementAdds
      seen_names := st.seen_names ++ seenAdd
      leader_count := st.leader_count + leaderAdd }

def d1ProcessMembers (st : D1LoopState) (ms : D1Members) : D1LoopState :=
  ms.foldl d1ProcessMember st

/-- The pre-loop size check entries (`len(members) < 2`). -/
def d1SizeIncomplete (ms : D1Members) : List String :=
  if ms.length < 2 then
    ["team_members: at least 2 members are required for a valid 8D team"]
  else []

def d1SizeSuggestions (ms : D1Members) : List String :=
  if ms.length < 2 then
    ["Add more cross-functional members (e.g. Quality, Production, Engineering)."]
  else []

/-- The loop state after processing all members (the pre-loop size entry
is already in `incomplete_fields`, as the source appends it first). -/
def d1Loop (ms : D1Members) : D1LoopState :=
  d1ProcessMembers
    { idx := 0, incomplete_fields := d1SizeIncomplete ms, quality_issues := []
      field_improvements := [], seen_names := [], leader_count := 0 } ms

/-- The post-loop team-leader entries. -/
def d1LeaderIncomplete (ms : D1Members) : List String :=
  if (d1Loop ms).leader_count = 0 ∧ 2 ≤ ms.length then
    ["team_members: no team_leader assigned — one member must have role = \x27team_leader\x27"]
  else []

def d1LeaderSuggestions (ms : D1Members) : List String :=
  if (d1Loop ms).leader_count = 0 ∧ 2 ≤ ms.length then
    ["Assign the role \x27team_leader\x27 to the person responsible for driving the 8D process."]
  else []

def d1LeaderQuality (ms : D1Members) : List String :=
  if 1 < (d1Loop ms).leader_count then
    ["team_members: " ++ toString (d1Loop ms).leader_count ++
     " members have role \x27team_leader\x27 — only one team leader is allowed"]
  else []

def d1Incomplete (ms : D1Members) : List String :=
  (d1Loop ms).incomplete_fields ++ d1LeaderIncomplete ms

def d1Quality (ms : D1Members) : List String :=
  (d1Loop ms).quality_issues ++ d1LeaderQuality ms

def d1Suggestions (ms : D1Members) : List String :=
  d1SizeSuggestions ms ++ d1LeaderSuggestions ms

/-- `missing_fields` stays empty on the list path (it is only populated
by the early not-a-list return), so `has_issues` reduces to the
incomplete and quality lists. -/
def d1Decision (ms : D1Members) : String :=
  if d1Incomplete ms ≠ [] ∨ d1Quality ms ≠ [] then "fail" else "pass"

/-- The `overall` summary text (the `missing_fields` summand of `total`
is zero on this path). -/
def d1Overall (ms : D1Members) : String :=
  if d1Decision ms = "pass" then
    "D1 validated ✅ — " ++ toString ms.length ++
    " team member(s) correctly defined with all required fields and a designated team leader."
  else
    "D1 needs " ++ toString ((d1Incomplete ms).length + (d1Quality ms).length) ++
    " correction(s) before it can be approved. Please fix the issues listed above."

/-- `D1LocalValidator.validate`.  Input `none` models a `team_members`
value that is absent or not a list. -/
def d1Validate (members? : Option D1Members) : ValidationResult :=
  match members? with
  | none =>
    { decision := "fail"
      missing_fields := ["team_members"]
      incomplete_fields := []
      quality_issues := []
      rules_violations := []
      suggestions := []
      field_improvements := []
      overall_assessment := "team_members field is missing or not a list."
      language_detected := "en" }
  | some members =>
    { decision := d1Decision members
      missing_fields := []
      incomplete_fields := d1Incomplete members
      quality_issues := d1Quality members
      rules_violations := []
      suggestions := d1Suggestions members
      field_improvements := (d1Loop members).field_improvements
      overall_assessment := d1Overall members
      language_detected := "en" }

/-- The per-member field and role checks of steps 3 and 4 of the D1
algorithm: the four required fields are non-empty after trimming and the
role belongs to the closed role set. -/
def memberChecksOk (m : TeamMember) : Prop :=
  pyStrip m.name ≠ "" ∧ pyStrip m.function ≠ "" ∧ pyStrip m.department ≠ "" ∧
  pyStrip m.role ≠ "" ∧ m.role ∈ VALID_ROLES

instance (m : TeamMember) : Decidable (memberChecksOk m) := by
  unfold memberChecksOk; infer_instance

/-- How many entries of the list are dict members with role `team_leader`. -/
def leaderTotal (ms : D1Members) : Nat :=
  ms.countP (fun m? => match m? with
    | some m => m.role = "team_leader"
    | none => false)

/-- The normalized name used for duplicate detection. -/
def normName (m : TeamMember) : String := pyLower (pyStrip m.name)

example :
    (d1Validate (some [some ⟨"Alice", "QE", "Quality", "team_leader"⟩,
                       some ⟨"Bob", "Tech", "Prod", "production"⟩])).decision = "pass" := by
  rfl

example :
    (d1Validate (some [some ⟨"Alice", "QE", "Quality", "team_leader"⟩,
                       some ⟨" alice ", "Tech", "Prod", "production"⟩])).decision = "fail" := by
  rfl

-- ===================================================================
-- Section configuration (section_config.py)
-- ===================================================================

def D2_SECTIONS : List (String × List String) :=
  [("five_w_2h", ["problem_description", "five_w_2h"]),
   ("deviation", ["standard_applicable", "expected_situation", "observed_situation",
                  "evidence_documents"]),
   ("is_is_not", ["is_is_not_factors"])]

def D3_SECTIONS : List (String × List String) :=
  [("defected_parts", ["defected_part_status"]),
   ("suspected_parts", ["suspected_parts_status", "alert_communicated_to", "alert_number"]),
   ("restart", ["restart_production", "containment_responsible"])]

def D4_SECTIONS : List (String × List String) :=
  [("four_m_occurrence", ["four_m_occurrence", "five_whys_occurrence",
                          "root_cause_occurrence"]),
   ("four_m_non_detection", ["four_m_non_detection", "five_whys_non_detection",
                             "root_cause_non_detection"])]

def D5_SECTIONS : List (String × List String) :=
  [("corrective_occurrence", ["corrective_actions_occurrence"]),
   ("corrective_detection", ["corrective_actions_detection"])]

def D6_SECTIONS : List (String × List String) :=
  [("implementation", ["corrective_actions_occurrence", "corrective_actions_detection"]),
   ("monitoring_checklist", ["monitoring", "checklist", "audited_by", "audit_date",
                             "num_shifts"])]

def D7_SECTIONS : List (String × List String) :=
  [("prevention", ["recurrence_risks", "replication_validations"]),
   ("knowledge", ["knowledge_base_updates", "long_term_monitoring"]),
   ("lessons_learned", ["lesson_disseminations", "ll_conclusion"])]

def D8_SECTIONS : List (String × List String) :=
  [("closure", ["closure_statement", "signatures"])]

/-- `STEP_SECTIONS` master registry (D1 has no sections). -/
def STEP_SECTIONS : List (String × List (String × List String)) :=
  [("D2", D2_SECTIONS), ("D3", D3_SECTIONS), ("D4", D4_SECTIONS), ("D5", D5_SECTIONS),
   ("D6", D6_SECTIONS), ("D7", D7_SECTIONS), ("D8", D8_SECTIONS)]

def stepSectionsOf (step_code : String) : Option (List (String × List String)) :=
  (STEP_SECTIONS.find? (fun p => p.1 = step_code)).map (·.2)

/-- `get_all_section_keys`: all section keys for a step, `[]` when the step
has no section configuration. -/
def get_all_section_keys (step_code : String) : List String :=
  match stepSectionsOf step_code with
  | some defs => defs.map (·.1)
  | none => []

/-- `get_section_fields` (raises `ValueError` on unknown codes or keys). -/
def get_section_fields (step_code : String) (section_key : String) :
    Except String (List String) :=
  match stepSectionsOf step_code with
  | none => .error ("No section config for step \x27" ++ step_code ++ "\x27")
  | some defs =>
    match defs.find? (fun p => p.1 = section_key) with
    | some p => .ok p.2
    | none => .error ("Unknown section \x27" ++ section_key ++ "\x27 for step \x27" ++
                      step_code ++ "\x27")

-- ===================================================================
-- Knowledge-base retriever (chatbot_service.py, KnowledgeBaseRetriever)
-- ===================================================================

/-- The kb_chunks/files store, as a lookup from `section_hint` to the
content of the first matching chunk of an `ikb`-purpose file. -/
abbrev KbStore := String → Option String

/-- The truthiness test `if not result or not result[0]` applied to a
fetched row: usable only when a row exists and its content is non-empty. -/
def kbHas (r : Option String) : Bool :=
  match r with
  | some c => c ≠ ""
  | none => false

/-- `step_code.split("_")[0]`. -/
def parentCode (step_code : String) : String :=
  (step_code.toList.takeWhile (fun c => c ≠ '_')).asString

/-- `KnowledgeBaseRetriever.get_step_coaching_content`: scoped hint first,
then a fallback to the parent step code's hint for section-scoped codes,
then a hard `ValueError`. -/
def get_step_coaching_content (kb : KbStore) (step_code : String) :
    Except String String :=
  let section_hint := step_code ++ "_coaching_validation"
  let result := kb section_hint
  if kbHas result then .ok (result.getD (""))
  else
    let parent := parentCode step_code
    if parent ≠ step_code ∧ kbHas (kb (parent ++ "_coaching_validation")) then
      .ok ((kb (parent ++ "_coaching_validation")).getD (""))
    else
      .error ("No coaching content found for " ++ step_code ++ " (hint: " ++
              section_hint ++ ")")

/-- `KnowledgeBaseRetriever.get_twenty_rules`: soft fallback to `""`. -/
def get_twenty_rules (kb : KbStore) : String :=
  let result := kb ("floor_rules_guidelines")
  if kbHas result then result.getD ("") else ""

-- ===================================================================
-- Persistent state (models/step_validation.py, models/report_step.py)
-- ===================================================================

/-- A `step_validation` row.  `professional_rewrite` is stored by the
source as the JSON serialization of the improvement map; since
serialization is injective and no claim inspects the raw text, the model
stores the map itself.  Unset nullable columns are `none`. -/
structure StepValidationRow where
  report_step_id : Nat
  section_key : Option String
  decision : String
  missing : Option (List String)
  issues : Option (List String)
  suggestions : Option (List String)
  professional_rewrite : Option (List (String × String))
  notes : Option String
  validated_at : Nat
deriving DecidableEq

/-- The fields of a `report_steps` row that the claims touch. -/
structure ReportStepRec where
  id : Nat
  step_code : String
  status : String
  data : Option (List (String × Json))
  updated_at : Nat
  completed_at : Option Nat

/-- The database state the orchestrator manipulates: the step being
operated on, its owning complaint's status (the report and complaint are
assumed to exist — every step reachable through the API is created by the
complaint-creation path), and all `step_validation` rows in insertion
order.  A query's `.first()` is the first matching list element. -/
structure OrchState where
  step : ReportStepRec
  complaint_status : String
  rows : List StepValidationRow

/-- An `HTTPException`; detail texts are abbreviated where the source
interpolates values into f-strings. -/
structure HErr where
  status_code : Nat
  detail : String
deriving DecidableEq

/-- Exceptions escaping `ChatbotService.validate_step`: `ValueError`
(KB gaps, malformed responses), `RuntimeError` (OpenAI transport), or any
other exception. -/
inductive ChatbotExn where
  | valueError : String → ChatbotExn
  | runtimeError : String → ChatbotExn
  | other : String → ChatbotExn
deriving DecidableEq

/-- Generic "update the first matching row in place, else append the new
row" helper shared by the three verdict writers that upsert. -/
def upsertGo (p : StepValidationRow → Bool) (upd : StepValidationRow → StepValidationRow)
    (newRow : StepValidationRow) : List StepValidationRow → List StepValidationRow
  | [] => [newRow]
  | r :: rest =>
    if p r then upd r :: rest else r :: upsertGo p upd newRow rest

-- ===================================================================
-- StepService internals (step_service.py)
-- ===================================================================

/-- The row predicate "belongs to step `sid` with section key `k`" used
by `_upsert_section_validation`'s query. -/
def secKeyMatch (sid : Nat) (k : String) (r : StepValidationRow) : Bool :=
  r.report_step_id = sid ∧ r.section_key = some k

/-- `StepService._upsert_section_validation`. -/
def upsertSectionValidation (rows : List StepValidationRow) (step_id : Nat)
    (section_key : String) (data : ValidationResult) (now : Nat) : List StepValidationRow :=
  let combined_issues := data.incomplete_fields ++ data.quality_issues ++ data.rules_violations
  upsertGo
    (secKeyMatch step_id section_key)
    (fun r => { r with
        decision := data.decision
        missing := some data.missing_fields
        issues := some combined_issues
        suggestions := some data.suggestions
        professional_rewrite := some data.field_improvements
        notes := some data.overall_assessment
        validated_at := now })
    { report_step_id := step_id
      section_key := some section_key
      decision := data.decision
      missing := some data.missing_fields
      issues := some combined_issues
      suggestions := some data.suggestions
      professional_rewrite := some data.field_improvements
      notes := some data.overall_assessment
      validated_at := now }
    rows

/-- The decision recorded for section `k` of step `step_id`:
`_get_section_status` builds `{r.section_key: r.decision}` over all
non-null-section rows of the step, so for each key the last matching row
in query order wins. -/
def sectionDecision (rows : List StepValidationRow) (step_id : Nat) (k : String) :
    Option String :=
  (rows.filterMap (fun r =>
    if r.report_step_id = step_id ∧ r.section_key = some k then some r.decision
    else none)).getLast?

/-- `StepService._get_section_status`: `(passed, remaining)`. -/
def getSectionStatus (rows : List StepValidationRow) (step_id : Nat)
    (all_keys : List String) : List String × List String :=
  (all_keys.filter (fun k => sectionDecision rows step_id k = some "pass"),
   all_keys.filter (fun k => sectionDecision rows step_id k ≠ some "pass"))

/-- `StepService._write_full_step_validation_from_sections`. -/
def writeFullStepValidationFromSections (rows : List StepValidationRow)
    (step_id : Nat) (now : Nat) : List StepValidationRow :=
  let secRows := rows.filter (fun r => r.report_step_id = step_id ∧ r.section_key.isSome)
  let combined_missing := (secRows.map (fun r => r.missing.getD [])).flatten
  let combined_issues := (secRows.map (fun r => r.issues.getD [])).flatten
  let combined_suggestions := (secRows.map (fun r => r.suggestions.getD [])).flatten
  let combined_improvements :=
    secRows.foldl (fun acc r => dictUpdateS acc (r.professional_rewrite.getD [])) []
  let overall := String.intercalate (" | ")
    (secRows.map (fun r => "[" ++ r.section_key.getD ("") ++ "] " ++ r.notes.getD ("")))
  upsertGo
    (fun r => r.report_step_id = step_id ∧ r.section_key = none)
    (fun r => { r with
        decision := "pass"
        missing := some combined_missing
        issues := some combined_issues
        suggestions := some combined_suggestions
        professional_rewrite := some combined_improvements
        notes := some overall
        validated_at := now })
    { report_step_id := step_id
      section_key := none
      decision := "pass"
      missing := some combined_missing
      issues := some combined_issues
      suggestions := some combined_suggestions
      professional_rewrite := some combined_improvements
      notes := some overall
      validated_at := now }
    rows

/-- `ValidationStorage.store_validation` (chatbot_service.py): updates the
first row of the step — selected WITHOUT filtering on `section_key` — or
inserts a fresh row whose `section_key` column takes its NULL default. -/
def storeValidation (rows : List StepValidationRow) (report_step_id : Nat)
    (data : ValidationResult) (now : Nat) : List StepValidationRow :=
  let combined_issues := data.incomplete_fields ++ data.quality_issues ++ data.rules_violations
  upsertGo
    (fun r => r.report_step_id = report_step_id)
    (fun r => { r with
        decision := data.decision
        missing := some data.missing_fields
        issues := some combined_issues
        suggestions := some data.suggestions
        professional_rewrite := some data.field_improvements
        notes := some data.overall_assessment
        validated_at := now })
    { report_step_id := report_step_id
      section_key := none
      decision := data.decision
      missing := some data.missing_fields
      issues := some combined_issues
      suggestions := some data.suggestions
      professional_rewrite := some data.field_improvements
      notes := some data.overall_assessment
      validated_at := now }
    rows

-- ===================================================================
-- StepService._validate_required_fields (step_service.py)
-- ===================================================================

/-- `data.get(k, "").strip()` and `(data.get(k) or "").strip()` for values
that the source expects to be strings: absent and falsy values strip to
`""`; a truthy non-string would raise `AttributeError` in the source, a
path no claim reaches, and strips to `""` here. -/
def jGetStrip (data : List (String × Json)) (k : String) : String :=
  match jLookup data k with
  | some (.str s) => pyStrip s
  | _ => ""

/-- `bool(data.get(k))`. -/
def jGetTruthy (data : List (String × Json)) (k : String) : Bool :=
  match jLookup data k with
  | some v => jTruthy v
  | none => false

/-- `data.get(k) or {}`: a dict value passes through, anything falsy
becomes `{}`; a truthy non-dict would raise downstream in the source
(unreached by the claims) and becomes `{}` here. -/
def jGetDictD (data : List (String × Json)) (k : String) : List (String × Json) :=
  match jLookup data k with
  | some (.obj d) => d
  | _ => []

/-- `v in (None, "", [], {})` — the emptiness test of the D2 branch.
`False` and `0` are NOT in that tuple, hence count as filled. -/
def isEmptyish : Json → Bool
  | .null => true
  | .str s => s = ""
  | .arr l => l.isEmpty
  | .obj d => d.isEmpty
  | _ => false

/-- `str(r.get(k, "")).strip()` is non-empty. -/
def jGetPyStrStripNonempty (rd : List (String × Json)) (k : String) : Bool :=
  pyStrip (pyStr ((jLookup rd k).getD (.str ("")))) ≠ ""

/-- D5's `row_ok`. -/
def d5RowOk : Json → Bool
  | .obj rd =>
    jGetPyStrStripNonempty rd ("action") ∧ jGetPyStrStripNonempty rd ("responsible") ∧
    jGetPyStrStripNonempty rd ("due_date")
  | _ => false

/-- D6's `impl_ok`. -/
def d6ImplOk : Json → Bool
  | .obj rd =>
    jGetPyStrStripNonempty rd ("action") ∧ jGetPyStrStripNonempty rd ("responsible") ∧
    jGetPyStrStripNonempty rd ("due_date") ∧
    (jGetPyStrStripNonempty rd ("imp_date") ∨ jGetPyStrStripNonempty rd ("evidence"))
  | _ => false

/-- An item of a D6 checklist counts as verified when it is a dict and
some shift box is truthy. -/
def d6ItemVerified : Json → Bool
  | .obj idd =>
    jGetTruthy idd ("shift_1") ∨ jGetTruthy idd ("shift_2") ∨ jGetTruthy idd ("shift_3")
  | _ => false

/-- D7's `list_has_content`: the value is a list containing a dict one of
whose non-None values has non-empty `str(v).strip()`. -/
def listHasContent : Option Json → Bool
  | some (.arr lst) =>
    lst.any (fun item =>
      match item with
      | .obj idd => idd.any (fun kv =>
          match kv.2 with
          | .null => false
          | v => pyStrip (pyStr v) ≠ "")
      | _ => false)
  | _ => false

/-- The `required_fields` table of the default branch. -/
def requiredFieldsTable : List (String × List String) :=
  [("D1", ["team_members"]), ("D2", ["five_w_2h"]), ("D3", ["defected_part_status"]),
   ("D4", ["root_cause_occurrence"]), ("D5", ["corrective_actions_occurrence"]),
   ("D6", ["monitoring", "checklist"]), ("D7", ["ll_conclusion"]), ("D8", ["closure_statement"])]

/-- The default branch's `is_filled`. -/
def isFilled : Option Json → Bool
  | none => false
  | some .null => false
  | some (.str s) => pyStrip s ≠ ""
  | some (.arr l) => !l.isEmpty
  | some (.obj d) => !d.isEmpty
  | some (.bool b) => b
  | some (.num n) => n ≠ 0

/-- `StepService._validate_required_fields`.  The input is `none` when
`step.data` is NULL (not a dict).  The D6 checklist ratio
`verified / len(checklist) >= 0.5` is computed in floats by the source;
`2 * verified ≥ len` is the same predicate for any list length below
2^52, far beyond anything representable here. -/
def validateRequiredFields (step_code : String) (data? : Option (List (String × Json))) :
    Bool :=
  match data? with
  | none => false
  | some data =>
    if data.isEmpty then false
    else if step_code = "D1" then
      match jLookup data ("team_members") with
      | some (.arr members) =>
        if members.length < 2 then false
        else members.all (fun m =>
          match m with
          | .obj md =>
            (["name", "function", "department"] : List String).all
              (fun k => jGetTruthy md k)
          | _ => false)
      | _ => false
    else if step_code = "D2" then
      match jLookup data ("five_w_2h") with
      | some (.obj f) => 3 ≤ f.countP (fun kv => !(isEmptyish kv.2))
      | _ => false
    else if step_code = "D3" then
      match jLookup data ("defected_part_status") with
      | some (.obj dd) =>
        if ¬ ((["returned", "isolated", "identified"] : List String).any
                (fun k => jGetTruthy dd k)) then false
        else if jGetTruthy dd ("isolated") ∧ jGetStrip dd ("isolated_location") = "" then false
        else if jGetTruthy dd ("identified") ∧ jGetStrip dd ("identified_method") = "" then false
        else true
      | _ => false
    else if step_code = "D4" then
      let occ := jGetDictD data ("root_cause_occurrence")
      let nond := jGetDictD data ("root_cause_non_detection")
      jGetStrip occ ("root_cause") ≠ "" ∧ jGetStrip occ ("validation_method") ≠ "" ∧
      jGetStrip nond ("root_cause") ≠ "" ∧ jGetStrip nond ("validation_method") ≠ ""
    else if step_code = "D5" then
      match jLookup data ("corrective_actions_occurrence"),
            jLookup data ("corrective_actions_detection") with
      | some (.arr occ), some (.arr det) => occ.any d5RowOk ∨ det.any d5RowOk
      | _, _ => false
    else if step_code = "D6" then
      let occImpl := match jLookup data ("corrective_actions_occurrence") with
        | some (.arr occ) => occ.any d6ImplOk
        | _ => false
      let detImpl := match jLookup data ("corrective_actions_detection") with
        | some (.arr det) => det.any d6ImplOk
        | _ => false
      if !(occImpl || detImpl) then false
      else
        match jLookup data ("monitoring") with
        | some (.obj m) =>
          let has_monitoring :=
            jGetStrip m ("monitoring_interval") ≠ "" ∨ jGetTruthy m ("pieces_produced") ∨
            jGetTruthy m ("rejection_rate") ∨ jGetStrip m ("audited_by") ≠ "" ∨
            jGetStrip m ("audit_date") ≠ ""
          if ¬ has_monitoring then false
          else
            match jLookup data ("checklist") with
            | some (.arr cl) =>
              if cl.isEmpty then false
              else cl.length ≤ 2 * cl.countP d6ItemVerified
            | _ => false
        | _ => false
    else if step_code = "D7" then
      jGetStrip data ("ll_conclusion") ≠ "" ∨
      listHasContent (jLookup data ("recurrence_risks")) ∨
      listHasContent (jLookup data ("lesson_disseminations")) ∨
      listHasContent (jLookup data ("replication_validations")) ∨
      listHasContent (jLookup data ("knowledge_base_updates")) ∨
      listHasContent (jLookup data ("long_term_monitoring"))
    else if step_code = "D8" then
      if jGetStrip data ("closure_statement") = "" then false
      else
        match jLookup data ("signatures") with
        | some s =>
          if jTruthy s then
            match s with
            | .obj sd => jGetStrip sd ("closed_by") ≠ ""
            | _ => false
          else true
        | none => true
    else
      let step_required := ((requiredFieldsTable.find? (fun p => p.1 = step_code)).map
        (·.2)).getD []
      if step_required.isEmpty then true
      else step_required.all (fun f => isFilled (jLookup data f))

-- ===================================================================
-- StepService.submit_section / submit_step / reject_step / approve_step
-- ===================================================================

/-- The payload `submit_section` returns on success. -/
structure SectionResp where
  validation : ValidationResult
  all_sections_passed : Bool
  passed_sections : List String
  remaining_sections : List String
deriving DecidableEq

/-- Result of a `submit_section` call: the database state afterwards and
the HTTP-level response. -/
structure SectionOutcome where
  state : OrchState
  response : Except HErr SectionResp

/-- `StepService.submit_section`.  The call into
`ChatbotService.validate_step` (slicing, KB retrieval, prompting, model
call, parsing) is abstracted by its outcome `aiOutcome`: the verdict dict
it returned, or the exception it raised.  For a section-scoped call the
chatbot service does not itself store anything
(`is_section_call = True`), so the state is untouched until the upsert. -/
def submitSection (st : OrchState) (section_key : String)
    (aiOutcome : Except ChatbotExn ValidationResult) (now : Nat) : SectionOutcome :=
  if st.step.status ∉ (["draft", "rejected", "submitted"] : List String) then
    { state := st, response := .error ⟨400, "Cannot validate section on this step status"⟩ }
  else if st.step.step_code = "D1" then
    { state := st,
      response := .error ⟨400, "D1 uses full-step local validation. Use /submit instead."⟩ }
  else
    match stepSectionsOf st.step.step_code with
    | none =>
      { state := st, response := .error ⟨400, "Per-section validation not configured"⟩ }
    | some sects =>
      if (sects.find? (fun p => p.1 = section_key)).isNone then
        { state := st, response := .error ⟨400, "Unknown section for this step"⟩ }
      else
        match aiOutcome with
        | .error (ChatbotExn.valueError m) =>
          { state := st, response := .error ⟨500, "Validation failed: " ++ m⟩ }
        | .error (ChatbotExn.runtimeError m) =>
          { state := st, response := .error ⟨503, "AI service unavailable: " ++ m⟩ }
        | .error (ChatbotExn.other m) =>
          { state := st, response := .error ⟨500, "Unexpected error: " ++ m⟩ }
        | .ok validation_result =>
          let rows1 := upsertSectionValidation st.rows st.step.id section_key
            validation_result now
          let all_keys := get_all_section_keys st.step.step_code
          let pr := getSectionStatus rows1 st.step.id all_keys
          if pr.2.length = 0 then
            let rows2 := writeFullStepValidationFromSections rows1 st.step.id now
            { state :=
                { step := { st.step with status := "validated", completed_at := some now }
                  complaint_status := st.step.step_code
                  rows := rows2 }
              response := .ok ⟨validation_result, true, pr.1, pr.2⟩ }
          else
            { state := { st with rows := rows1 }
              response := .ok ⟨validation_result, false, pr.1, pr.2⟩ }

/-- The payload `submit_step` returns on success. -/
structure StepSubmitResp where
  step_status : String
  validation : ValidationResult
  message : String
deriving DecidableEq

/-- Result of a `submit_step` call.  `validatorCalls` counts how many
times `ChatbotService.validate_step` (the model-backed/local validator
entry point) was invoked. -/
structure StepSubmitOutcome where
  state : OrchState
  response : Except HErr StepSubmitResp
  validatorCalls : Nat

/-- `StepService.submit_step` (full-step path).  `aiOutcome` abstracts
`ChatbotService.validate_step(step_code, step_data=None)`; on success that
call has already stored a full-step verdict through
`ValidationStorage.store_validation` and committed it, so the row change
is applied on the `.ok` branch; on an exception the chatbot service rolled
its own transaction back, so rows are unchanged. -/
def submitStep (st : OrchState) (aiOutcome : Except ChatbotExn ValidationResult)
    (now : Nat) : StepSubmitOutcome :=
  if st.step.status ∉ (["draft", "rejected"] : List String) then
    { state := st, response := .error ⟨400, "Cannot submit step with this status"⟩
      validatorCalls := 0 }
  else if ¬ validateRequiredFields st.step.step_code st.step.data then
    { state := st
      response := .error ⟨422, "Please fill in all required fields before continuing."⟩
      validatorCalls := 0 }
  else
    let stepSubmitted := { st.step with status := "submitted", updated_at := now }
    match aiOutcome with
    | .ok v =>
      let rows1 := storeValidation st.rows st.step.id v now
      if v.decision = "pass" then
        { state :=
            { step := { stepSubmitted with status := "validated", completed_at := some now }
              complaint_status := st.step.step_code
              rows := rows1 }
          response := .ok ⟨"validated", v, "Step validated successfully"⟩
          validatorCalls := 1 }
      else
        { state := { st with step := { stepSubmitted with status := "rejected" }, rows := rows1 }
          response := .ok ⟨"rejected", v, "Step rejected — please review feedback"⟩
          validatorCalls := 1 }
    | .error (ChatbotExn.valueError m) =>
      { state := { st with step := { stepSubmitted with status := "draft" } }
        response := .error ⟨500, "Validation failed: " ++ m⟩
        validatorCalls := 1 }
    | .error (ChatbotExn.runtimeError m) =>
      { state := { st with step := { stepSubmitted with status := "draft" } }
        response := .error ⟨503, "AI service unavailable: " ++ m⟩
        validatorCalls := 1 }
    | .error (ChatbotExn.other m) =>
      { state := { st with step := { stepSubmitted with status := "draft" } }
        response := .error ⟨500, "Unexpected error: " ++ m⟩
        validatorCalls := 1 }

/-- `StepService.reject_step`: unconditional status write plus a freshly
inserted full-step verdict row (`section_key` stays at its NULL default;
only `issues` is populated). -/
def rejectStep (st : OrchState) (reason : String) (now : Nat) : OrchState :=
  { st with
      step := { st.step with status := "rejected", updated_at := now }
      rows := st.rows ++
        [{ report_step_id := st.step.id
           section_key := none
           decision := "fail"
           missing := none
           issues := some [reason]
           suggestions := none
           professional_rewrite := none
           notes := none
           validated_at := now }] }

/-- The `validation_data` dict handed to `approve_step`; absent keys are
`none` (`validation_data.get(...)` defaults to `None`). -/
structure ApproveData where
  missing : Option (List String)
  issues : Option (List String)
  suggestions : Option (List String)
  professional_rewrite : Option (List (String × String))
  notes : Option String
deriving DecidableEq

/-- `StepService.approve_step`: unconditional status write plus a freshly
inserted full-step verdict row (`validated_at` takes the column default). -/
def approveStep (st : OrchState) (vd : ApproveData) (now : Nat) : OrchState :=
  { st with
      step := { st.step with status := "validated" }
      rows := st.rows ++
        [{ report_step_id := st.step.id
           section_key := none
           decision := "pass"
           missing := vd.missing
           issues := vd.issues
           suggestions := vd.suggestions
           professional_rewrite := vd.professional_rewrite
           notes := vd.notes
           validated_at := now }] }

-- ===================================================================
-- StepService.save_step_progress and the Pydantic layer
-- ===================================================================

/-- A per-step-code Pydantic schema, as `save_step_progress` uses one:
validate the payload and return `model_dump(mode="json")`, or fail with a
validation error message. -/
abbrev SchemaMap :=
  String → Option (List (String × Json) → Except String (List (String × Json)))

/-- Pydantic validation and dump of one `TeamMember` model: the four
required `str` fields must be present as strings (Pydantic v2 does not
coerce other types into `str`); extra keys are ignored; `model_dump`
yields exactly the four schema fields. -/
def pydTeamMember (j : Json) : Except String (List (String × Json)) :=
  match j with
  | .obj md =>
    match jLookup md ("name"), jLookup md ("function"),
          jLookup md ("department"), jLookup md ("role") with
    | some (.str n), some (.str f), some (.str d), some (.str r) =>
      .ok [("name", .str n), ("function", .str f), ("department", .str d), ("role", .str r)]
    | _, _, _, _ => .error ("validation error for TeamMember")
  | _ => .error ("Input should be a valid dictionary")

/-- Pydantic validation and dump of `D1Data`
(`team_members: List[TeamMember] = Field(default_factory=list)`): extra
top-level keys are ignored, and `model_dump` emits every schema field, so
an unsupplied `team_members` comes back as `[]`.  The other step schemas
(`D2Data` … `D8Data`) behave the same way structurally — `model_dump`
always emits all of their top-level fields with defaults for unsupplied
ones — but no claim needs their field-by-field detail, so
`save_step_progress` takes the schema map as an explicit argument and the
theorems quantify over it. -/
def pydanticD1Validate (data : List (String × Json)) :
    Except String (List (String × Json)) :=
  match jLookup data ("team_members") with
  | none => .ok [("team_members", .arr [])]
  | some (.arr ms) =>
    match ms.mapM pydTeamMember with
    | .ok mds => .ok [("team_members", .arr (mds.map Json.obj))]
    | .error e => .error e
  | some _ => .error ("Input should be a valid list")

/-- The schema registry instantiated with the entry the claims exercise. -/
def STEP_SCHEMAS_D1 : SchemaMap :=
  fun c => if c = "D1" then some pydanticD1Validate else none

/-- The schema-validation step of `save_step_progress`:
`schema_class(**data)` followed by `model_dump(mode="json")`, raising a
422 on a Pydantic validation error; skipped when the step code has no
schema or `validate_schema` is false. -/
def saveNormalize (schemas : SchemaMap) (step_code : String)
    (data : List (String × Json)) (validate_schema : Bool) :
    Except HErr (List (String × Json)) :=
  if validate_schema then
    match schemas step_code with
    | some f =>
      match f data with
      | .ok nd => .ok nd
      | .error e => .error ⟨422, "Invalid data format for " ++ step_code ++ ": " ++ e⟩
    | none => .ok data
  else .ok data

/-- `StepService.save_step_progress`: no status precondition; merges
`{**step.data, **data}` at top level (`jsonable_encoder` is the identity
on JSON-shaped data) and refreshes `updated_at`. -/
def saveStepProgress (schemas : SchemaMap) (st : OrchState)
    (data : List (String × Json)) (validate_schema : Bool) (now : Nat) :
    Except HErr OrchState :=
  match saveNormalize schemas st.step.step_code data validate_schema with
  | .error e => .error e
  | .ok nd =>
    let old := st.step.data.getD []
    let merged := dictMerge old nd
    .ok { st with step := { st.step with data := some merged, updated_at := now } }

-- ===================================================================
-- Helper lemmas: upsertGo and section decisions
-- ===================================================================

/-- Rows invisible to a projection stay invisible through an upsert. -/
theorem upsertGo_filterMap_eq {α : Type} (p : StepValidationRow → Bool)
    (upd : StepValidationRow → StepValidationRow) (nr : StepValidationRow)
    (f : StepValidationRow → Option α)
    (hupd : ∀ r, p r = true → f (upd r) = f r) (hnew : f nr = none) :
    ∀ rows, (upsertGo p upd nr rows).filterMap f = rows.filterMap f := by
  intro rows
  induction rows with
  | nil => simp [upsertGo, hnew]
  | cons r rest ih =>
    by_cases hp : p r
    · simp [upsertGo, hp, List.filterMap_cons, hupd r hp]
    · simp [upsertGo, hp, List.filterMap_cons]
      cases hf : f r <;> simp [ih]

/-- An upsert whose update preserves a row-counting predicate and whose
fresh row does not satisfy it leaves the count unchanged. -/
theorem upsertGo_countP_eq (p : StepValidationRow → Bool)
    (upd : StepValidationRow → StepValidationRow) (nr : StepValidationRow)
    (q : StepValidationRow → Bool)
    (hupd : ∀ r, p r = true → q (upd r) = q r) (hnew : q nr = false) :
    ∀ rows, (upsertGo p upd nr rows).countP q = rows.countP q := by
  intro rows
  induction rows with
  | nil => simp [upsertGo, List.countP_cons, hnew]
  | cons r rest ih =>
    by_cases hp : p r
    · simp [upsertGo, hp, List.countP_cons, hupd r hp]
    · simp [upsertGo, hp, List.countP_cons, ih]

/-- An upsert targeting the counted rows themselves yields at most one of
them when there was at most one before. -/
theorem upsertGo_countP_le_one (p : StepValidationRow → Bool)
    (upd : StepValidationRow → StepValidationRow) (nr : StepValidationRow)
    (hupd : ∀ r, p r = true → p (upd r) = p r)
    (rows : List StepValidationRow) (h : rows.countP p ≤ 1) :
    (upsertGo p upd nr rows).countP p ≤ 1 := by
  induction rows with
  | nil => cases hq : p nr <;> simp [upsertGo, List.countP_cons, hq]
  | cons r rest ih =>
    rw [List.countP_cons] at h
    by_cases hp : p r
    · have hrest : rest.countP p = 0 := by
        rw [if_pos hp] at h
        omega
      simp [upsertGo, hp, List.countP_cons, hupd r hp, hrest]
    · have hrest : rest.countP p ≤ 1 := by
        rw [if_neg hp] at h
        omega
      simp [upsertGo, hp, List.countP_cons, ih hrest]

/-- When a matching row already exists, an upsert does not change the
number of rows (it overwrites in place). -/
theorem upsertGo_length_of_any (p : StepValidationRow → Bool)
    (upd : StepValidationRow → StepValidationRow) (nr : StepValidationRow)
    (rows : List StepValidationRow) (h : rows.any p = true) :
    (upsertGo p upd nr rows).length = rows.length := by
  induction rows with
  | nil => simp at h
  | cons r rest ih =>
    by_cases hp : p r
    · simp [upsertGo, hp]
    · have h2 : rest.any p = true := by
        simpa [List.any_cons, hp] using h
      simp [upsertGo, hp, ih h2]



/-- The uniqueness invariant for non-null section keys: at most one
verdict row per (step, section) pair. -/
def atMostOnePerSection (rows : List StepValidationRow) : Prop :=
  ∀ sid k, rows.countP (secKeyMatch sid k) ≤ 1

/-- Generic form: when at most one row matches, upserting the matching
row makes the projection's last value the new one. -/
theorem upsertGo_filterMap_getLast {α : Type} (p : StepValidationRow → Bool)
    (upd : StepValidationRow → StepValidationRow) (nr : StepValidationRow)
    (f : StepValidationRow → Option α) (a : α)
    (hno : ∀ r, p r = false → f r = none)
    (hupd : ∀ r, p r = true → f (upd r) = some a)
    (hnew : f nr = some a)
    (rows : List StepValidationRow)
    (h : rows.countP p ≤ 1) :
    ((upsertGo p upd nr rows).filterMap f).getLast? = some a := by
  induction rows with
  | nil => simp [upsertGo, List.filterMap_cons, hnew]
  | cons r rest ih =>
    rw [List.countP_cons] at h
    by_cases hp : p r
    · have hrest : rest.countP p = 0 := by
        rw [if_pos hp] at h
        omega
      have hfm : rest.filterMap f = [] := by
        rw [List.filterMap_eq_nil_iff]
        intro x hx
        refine hno x ?_
        by_contra hpx
        have hx1 : rest.countP p ≥ 1 := by
          have hmem : x ∈ rest.filter p := by
            rw [List.mem_filter]
            exact ⟨hx, by simpa using hpx⟩
          have h2 : 0 < (rest.filter p).length := List.length_pos_of_mem hmem
          simpa [List.countP_eq_length_filter] using h2
        omega
      simp [upsertGo, hp, List.filterMap_cons, hupd r hp, hfm]
    · have hrest : rest.countP p ≤ 1 := by
        rw [if_neg hp] at h
        omega
      simp [upsertGo, hp, List.filterMap_cons, hno r (by simpa using hp), ih hrest]

/-- After `_upsert_section_validation` for section `k` of step `sid`, the
stored decision for that section is the new verdict's decision (given the
uniqueness invariant on the section's rows). -/
theorem sectionDecision_upsert_self (rows : List StepValidationRow) (sid : Nat)
    (k : String) (v : ValidationResult) (now : Nat)
    (h : rows.countP (secKeyMatch sid k) ≤ 1) :
    sectionDecision (upsertSectionValidation rows sid k v now) sid k = some v.decision := by
  unfold upsertSectionValidation sectionDecision
  refine upsertGo_filterMap_getLast _ _ _ _ v.decision ?_ ?_ ?_ rows h
  · intro r hpr
    have hnot : ¬ (r.report_step_id = sid ∧ r.section_key = some k) := by
      simpa [secKeyMatch] using hpr
    simp [hnot]
  · intro r hpr
    have hyes : r.report_step_id = sid ∧ r.section_key = some k := by
      simpa [secKeyMatch] using hpr
    simp [hyes.1, hyes.2]
  · simp

/-- `_upsert_section_validation` for `(sid, k)` leaves the stored decision
of every other (step, section) pair unchanged. -/
theorem sectionDecision_upsert_other (rows : List StepValidationRow) (sid : Nat)
    (k : String) (v : ValidationResult) (now : Nat) (sid' : Nat) (k' : String)
    (hne : k' ≠ k ∨ sid' ≠ sid) :
    sectionDecision (upsertSectionValidation rows sid k v now) sid' k' =
      sectionDecision rows sid' k' := by
  unfold upsertSectionValidation sectionDecision
  rw [upsertGo_filterMap_eq]
  · intro r hpr
    have hyes : r.report_step_id = sid ∧ r.section_key = some k := by
      simpa [secKeyMatch] using hpr
    have hnot : ¬ (r.report_step_id = sid' ∧ r.section_key = some k') := by
      rintro ⟨h1, h2⟩
      rcases hne with h3 | h3
      · exact h3 (by
          have := hyes.2.symm.trans h2
          simpa using this.symm)
      · exact h3 (hyes.1 ▸ h1.symm ▸ rfl)
    simp [hnot]
  · have hnot : ¬ ((sid : Nat) = sid' ∧ (some k : Option String) = some k') := by
      rintro ⟨h1, h2⟩
      rcases hne with h3 | h3
      · exact h3 (by simpa using h2.symm)
      · exact h3 h1.symm
    rw [if_neg hnot]

/-- `_write_full_step_validation_from_sections` only writes the null-key
summary row, so per-section decisions are unchanged. -/
theorem sectionDecision_writeFullStep (rows : List StepValidationRow) (sid : Nat)
    (now : Nat) (sid' : Nat) (k' : String) :
    sectionDecision (writeFullStepValidationFromSections rows sid now) sid' k' =
      sectionDecision rows sid' k' := by
  unfold writeFullStepValidationFromSections sectionDecision
  rw [upsertGo_filterMap_eq]
  · intro r hpr
    have hkey : r.section_key = none := by
      have := of_decide_eq_true hpr
      exact this.2
    simp [hkey]
  · simp

-- ===================================================================
-- Claims
-- ===================================================================

/-- C1: for every step with a configured section set, after a section
submit the orchestrator computes `passed` as exactly the configured
section keys whose most recently stored verdict (the `sectionDecision`
over the resulting rows — the upsert makes this the latest verdict per
section) has decision `pass`, and `remaining` as the other configured
keys; the step's status is set to `validated` (and the owning complaint's
status to the step's code) if and only if `remaining` is empty.  The
state is quantified over arbitrary prior verdict rows (subject to the
per-section uniqueness invariant the writers maintain), so the result is
independent of the order and repetition of earlier section submissions:
the submitted section's stored verdict becomes the new one and every
other section's stored verdict is untouched. -/
theorem C1_section_aggregation
    (st : OrchState) (section_key : String) (v : ValidationResult) (now : Nat)
    (hstatus : st.step.status ∈ (["draft", "rejected", "submitted"] : List String))
    (hnotD1 : st.step.step_code ≠ "D1")
    (sects : List (String × List String))
    (hsects : stepSectionsOf st.step.step_code = some sects)
    (hkey : (sects.find? (fun p => p.1 = section_key)).isSome = true)
    (huniq : atMostOnePerSection st.rows) :
    ∃ resp, (submitSection st section_key (.ok v) now).response = .ok resp ∧
      resp.passed_sections = (get_all_section_keys st.step.step_code).filter
        (fun k => sectionDecision (submitSection st section_key (.ok v) now).state.rows
          st.step.id k = some "pass") ∧
      resp.remaining_sections = (get_all_section_keys st.step.step_code).filter
        (fun k => sectionDecision (submitSection st section_key (.ok v) now).state.rows
          st.step.id k ≠ some "pass") ∧
      ((submitSection st section_key (.ok v) now).state.step.status = "validated" ↔
        resp.remaining_sections = []) ∧
      (resp.remaining_sections = [] →
        (submitSection st section_key (.ok v) now).state.complaint_status = st.step.step_code) ∧
      sectionDecision (submitSection st section_key (.ok v) now).state.rows
        st.step.id section_key = some v.decision ∧
      (∀ k, k ≠ section_key →
        sectionDecision (submitSection st section_key (.ok v) now).state.rows st.step.id k =
          sectionDecision st.rows st.step.id k) := by
  obtain ⟨fnd, hfnd⟩ := Option.isSome_iff_exists.mp hkey
  have hne : st.step.status ≠ "validated" := by
    simp at hstatus
    rcases hstatus with h | h | h <;> rw [h] <;> decide
  by_cases hrem : (getSectionStatus
      (upsertSectionValidation st.rows st.step.id section_key v now) st.step.id
      (get_all_section_keys st.step.step_code)).2.length = 0
  · have hout : submitSection st section_key (.ok v) now =
        { state :=
            { step := { st.step with status := "validated", completed_at := some now }
              complaint_status := st.step.step_code
              rows := writeFullStepValidationFromSections
                (upsertSectionValidation st.rows st.step.id section_key v now) st.step.id now }
          response := .ok ⟨v, true,
            (getSectionStatus (upsertSectionValidation st.rows st.step.id section_key v now)
              st.step.id (get_all_section_keys st.step.step_code)).1,
            (getSectionStatus (upsertSectionValidation st.rows st.step.id section_key v now)
              st.step.id (get_all_section_keys st.step.step_code)).2⟩ } := by
      unfold submitSection
      rw [if_neg (not_not_intro hstatus), if_neg hnotD1, hsects]
      simp only [hfnd, Option.isNone_some, Bool.false_eq_true, if_false]
      rw [if_pos hrem]
    rw [hout]
    refine ⟨_, rfl, ?_, ?_, ?_, ?_⟩
    · show (getSectionStatus _ st.step.id _).1 = _
      refine List.filter_congr ?_
      intro k _
      rw [sectionDecision_writeFullStep]
    · show (getSectionStatus _ st.step.id _).2 = _
      refine List.filter_congr ?_
      intro k _
      rw [sectionDecision_writeFullStep]
    · exact ⟨fun _ => List.length_eq_zero.mp hrem, fun _ => rfl⟩
    · refine ⟨fun _ => rfl, ?_, ?_⟩
      · show sectionDecision (writeFullStepValidationFromSections _ _ _) _ _ = _
        rw [sectionDecision_writeFullStep]
        exact sectionDecision_upsert_self st.rows st.step.id section_key v now
          (huniq st.step.id section_key)
      · intro k hk
        show sectionDecision (writeFullStepValidationFromSections _ _ _) _ _ = _
        rw [sectionDecision_writeFullStep]
        exact sectionDecision_upsert_other st.rows st.step.id section_key v now
          st.step.id k (Or.inl hk)
  · have hout : submitSection st section_key (.ok v) now =
        { state := { st with
            rows := upsertSectionValidation st.rows st.step.id section_key v now }
          response := .ok ⟨v, false,
            (getSectionStatus (upsertSectionValidation st.rows st.step.id section_key v now)
              st.step.id (get_all_section_keys st.step.step_code)).1,
            (getSectionStatus (upsertSectionValidation st.rows st.step.id section_key v now)
              st.step.id (get_all_section_keys st.step.step_code)).2⟩ } := by
      unfold submitSection
      rw [if_neg (not_not_intro hstatus), if_neg hnotD1, hsects]
      simp only [hfnd, Option.isNone_some, Bool.false_eq_true, if_false]
      rw [if_neg hrem]
    rw [hout]
    refine ⟨_, rfl, rfl, rfl, ?_, ?_⟩
    · constructor
      · intro hv
        exact absurd hv hne
      · intro hempty
        have h0 : (getSectionStatus
            (upsertSectionValidation st.rows st.step.id section_key v now) st.step.id
            (get_all_section_keys st.step.step_code)).2 = [] := hempty
        exact absurd (by rw [h0]; rfl) hrem
    · refine ⟨?_, ?_, ?_⟩
      · intro hempty
        have h0 : (getSectionStatus
            (upsertSectionValidation st.rows st.step.id section_key v now) st.step.id
            (get_all_section_keys st.step.step_code)).2 = [] := hempty
        exact absurd (by rw [h0]; rfl) hrem
      · exact sectionDecision_upsert_self st.rows st.step.id section_key v now
          (huniq st.step.id section_key)
      · intro k hk
        exact sectionDecision_upsert_other st.rows st.step.id section_key v now
          st.step.id k (Or.inl hk)

/-- Witness for C1 at a concrete D5 step in draft with no prior rows. -/
theorem C1_section_aggregation_witness :
    ∃ resp, (submitSection (⟨⟨7, "D5", "draft", some [], 0, none⟩, "D4", []⟩ : OrchState)
      ("corrective_occurrence")
      (.ok ⟨"pass", [], [], [], [], [], [], "ok", "en"⟩) 3).response = .ok resp := by
  obtain ⟨resp, h1, _⟩ := C1_section_aggregation
    ⟨⟨7, "D5", "draft", some [], 0, none⟩, "D4", []⟩ ("corrective_occurrence")
    ⟨"pass", [], [], [], [], [], [], "ok", "en"⟩ 3 (by decide) (by decide) D5_SECTIONS rfl rfl
    (fun sid k => by simp)
  exact ⟨resp, h1⟩

/-- `_upsert_section_validation` preserves per-section uniqueness. -/
theorem upsertSection_preserves_uniq (rows : List StepValidationRow) (sid : Nat)
    (k : String) (v : ValidationResult) (now : Nat) (h : atMostOnePerSection rows) :
    atMostOnePerSection (upsertSectionValidation rows sid k v now) := by
  intro sid' k'
  unfold upsertSectionValidation
  by_cases hpair : sid' = sid ∧ k' = k
  · obtain ⟨h1, h2⟩ := hpair
    subst h1
    subst h2
    exact upsertGo_countP_le_one _ _ _ (fun r _ => by simp [secKeyMatch]) rows (h sid' k')
  · rw [upsertGo_countP_eq]
    · exact h sid' k'
    · intro r _
      simp [secKeyMatch]
    · simp only [secKeyMatch, decide_eq_false_iff_not]
      rintro ⟨h1, h2⟩
      exact hpair ⟨h1.symm, by simpa using h2.symm⟩

/-- `_write_full_step_validation_from_sections` preserves per-section
uniqueness (it only writes a null-key row). -/
theorem writeFullStep_preserves_uniq (rows : List StepValidationRow) (sid : Nat)
    (now : Nat) (h : atMostOnePerSection rows) :
    atMostOnePerSection (writeFullStepValidationFromSections rows sid now) := by
  intro sid' k'
  unfold writeFullStepValidationFromSections
  rw [upsertGo_countP_eq]
  · exact h sid' k'
  · intro r _
    simp [secKeyMatch]
  · simp [secKeyMatch]

/-- `ValidationStorage.store_validation` preserves per-section uniqueness
(the row it updates keeps its key; a fresh row has a null key). -/
theorem storeValidation_preserves_uniq (rows : List StepValidationRow) (sid : Nat)
    (v : ValidationResult) (now : Nat) (h : atMostOnePerSection rows) :
    atMostOnePerSection (storeValidation rows sid v now) := by
  intro sid' k'
  unfold storeValidation
  rw [upsertGo_countP_eq]
  · exact h sid' k'
  · intro r _
    simp [secKeyMatch]
  · simp [secKeyMatch]

/-- Appending a null-key row preserves per-section uniqueness. -/
theorem append_nullrow_preserves_uniq (rows : List StepValidationRow)
    (r0 : StepValidationRow) (hr0 : r0.section_key = none)
    (h : atMostOnePerSection rows) :
    atMostOnePerSection (rows ++ [r0]) := by
  intro sid' k'
  rw [List.countP_append]
  have : List.countP (secKeyMatch sid' k') [r0] = 0 := by
    simp [secKeyMatch, hr0]
  rw [this]
  simpa using h sid' k'

/-- `submit_section` preserves per-section uniqueness in every branch. -/
theorem submitSection_preserves_uniq (st : OrchState) (k : String)
    (o : Except ChatbotExn ValidationResult) (now : Nat)
    (h : atMostOnePerSection st.rows) :
    atMostOnePerSection (submitSection st k o now).state.rows := by
  unfold submitSection
  by_cases h1 : st.step.status ∉ (["draft", "rejected", "submitted"] : List String)
  · rw [if_pos h1]
    exact h
  · rw [if_neg h1]
    by_cases h2 : st.step.step_code = "D1"
    · rw [if_pos h2]
      exact h
    · rw [if_neg h2]
      cases hs : stepSectionsOf st.step.step_code with
      | none => exact h
      | some sects =>
        dsimp only
        by_cases h3 : (sects.find? (fun p => p.1 = k)).isNone = true
        · rw [if_pos h3]
          exact h
        · rw [if_neg h3]
          cases o with
          | error e => cases e <;> exact h
          | ok v =>
            dsimp only
            by_cases h4 : (getSectionStatus
                (upsertSectionValidation st.rows st.step.id k v now) st.step.id
                (get_all_section_keys st.step.step_code)).2.length = 0
            · rw [if_pos h4]
              exact writeFullStep_preserves_uniq _ _ _
                (upsertSection_preserves_uniq _ _ _ _ _ h)
            · rw [if_neg h4]
              exact upsertSection_preserves_uniq _ _ _ _ _ h

/-- `submit_step` preserves per-section uniqueness in every branch. -/
theorem submitStep_preserves_uniq (st : OrchState)
    (o : Except ChatbotExn ValidationResult) (now : Nat)
    (h : atMostOnePerSection st.rows) :
    atMostOnePerSection (submitStep st o now).state.rows := by
  unfold submitStep
  by_cases h1 : st.step.status ∉ (["draft", "rejected"] : List String)
  · rw [if_pos h1]
    exact h
  · rw [if_neg h1]
    by_cases h2 : ¬ validateRequiredFields st.step.step_code st.step.data = true
    · rw [if_pos h2]
      exact h
    · rw [if_neg h2]
      cases o with
      | error e => cases e <;> exact h
      | ok v =>
        dsimp only
        by_cases h4 : v.decision = "pass"
        · rw [if_pos h4]
          exact storeValidation_preserves_uniq _ _ _ _ h
        · rw [if_neg h4]
          exact storeValidation_preserves_uniq _ _ _ _ h


/-- C2 counterexample: the claim asserts at most one verdict row per
(step, section) pair INCLUDING the null full-step key, preserved by every
operation that writes verdicts.  Two consecutive `reject_step` calls on
the same step leave two rows with `(report_step_id = 7, section_key =
NULL)`: `reject_step` always inserts a brand-new row, and the composite
unique constraint does not apply to NULL `section_key` values. -/
theorem C2_uniqueness_counterexample :
    ((rejectStep (rejectStep (⟨⟨7, "D5", "draft", some [], 0, none⟩, "D4", []⟩ : OrchState)
        ("r1") 1) ("r2") 2).rows.countP
      (fun r => r.report_step_id = 7 ∧ r.section_key = none)) = 2 := by
  decide

/-- C2 amended: at most one verdict row per (step, section) pair holds
for non-null section keys and is preserved by every operation that
writes verdicts; re-validation of the same (step, section) overwrites the
existing row in place rather than appending.  The two full-step upsert
writers also preserve at-most-one for the null key, but `reject_step` and
`approve_step` append a brand-new null-key row on every call (see the
counterexample), so the invariant cannot be extended to the null
full-step key. -/
theorem C2_uniqueness_amended :
    (∀ rows sid k v now, atMostOnePerSection rows →
        atMostOnePerSection (upsertSectionValidation rows sid k v now)) ∧
    (∀ rows sid now, atMostOnePerSection rows →
        atMostOnePerSection (writeFullStepValidationFromSections rows sid now)) ∧
    (∀ rows sid v now, atMostOnePerSection rows →
        atMostOnePerSection (storeValidation rows sid v now)) ∧
    (∀ st k o now, atMostOnePerSection st.rows →
        atMostOnePerSection (submitSection st k o now).state.rows) ∧
    (∀ st o now, atMostOnePerSection st.rows →
        atMostOnePerSection (submitStep st o now).state.rows) ∧
    (∀ st reason now, atMostOnePerSection st.rows →
        atMostOnePerSection (rejectStep st reason now).rows) ∧
    (∀ st vd now, atMostOnePerSection st.rows →
        atMostOnePerSection (approveStep st vd now).rows) ∧
    (∀ rows sid k v now, rows.any (secKeyMatch sid k) = true →
        (upsertSectionValidation rows sid k v now).length = rows.length) := by
  refine ⟨upsertSection_preserves_uniq, writeFullStep_preserves_uniq,
    storeValidation_preserves_uniq, submitSection_preserves_uniq,
    submitStep_preserves_uniq, ?_, ?_, ?_⟩
  · intro st reason now h
    exact append_nullrow_preserves_uniq _ _ rfl h
  · intro st vd now h
    exact append_nullrow_preserves_uniq _ _ rfl h
  · intro rows sid k v now hany
    exact upsertGo_length_of_any _ _ _ rows hany

/-- Witness for C2's amended theorem: the section upsert applied to an
empty table keeps the invariant. -/
theorem C2_uniqueness_amended_witness :
    atMostOnePerSection (upsertSectionValidation [] 7 ("five_w_2h")
      ⟨"pass", [], [], [], [], [], [], "", "en"⟩ 1) :=
  C2_uniqueness_amended.1 [] 7 ("five_w_2h") ⟨"pass", [], [], [], [], [], [], "", "en"⟩ 1
    (fun sid k => by simp)

/-- C10: `reject_step` and `approve_step` set the step status to
`rejected` / `validated` unconditionally (no precondition on the current
status), never advance the complaint status, and always insert a
brand-new full-step (null-section) verdict row, so repeated calls
accumulate multiple full-step rows for the same step. -/
theorem C10_reject_approve_unconditional :
    (∀ st reason now, (rejectStep st reason now).step.status = "rejected" ∧
        (rejectStep st reason now).complaint_status = st.complaint_status ∧
        (rejectStep st reason now).rows = st.rows ++
          [⟨st.step.id, none, "fail", none, some [reason], none, none, none, now⟩]) ∧
    (∀ st vd now, (approveStep st vd now).step.status = "validated" ∧
        (approveStep st vd now).complaint_status = st.complaint_status ∧
        (approveStep st vd now).rows = st.rows ++
          [⟨st.step.id, none, "pass", vd.missing, vd.issues, vd.suggestions,
            vd.professional_rewrite, vd.notes, now⟩]) ∧
    (∀ st r1 r2 n1 n2,
        ((rejectStep (rejectStep st r1 n1) r2 n2).rows.countP
            (fun r => r.report_step_id = st.step.id ∧ r.section_key = none)) =
          (st.rows.countP (fun r => r.report_step_id = st.step.id ∧ r.section_key = none)) + 2) := by
  refine ⟨fun st reason now => ⟨rfl, rfl, rfl⟩, fun st vd now => ⟨rfl, rfl, rfl⟩, ?_⟩
  intro st r1 r2 n1 n2
  simp [rejectStep, List.countP_append, List.countP_cons]

/-- C3 counterexample: the claim says a step only ever moves along
draft → submitted → one of validated/rejected and never from draft directly
to validated; `approve_step` on a draft step moves it straight to
validated. -/
theorem C3_statemachine_counterexample :
    ((approveStep (⟨⟨7, "D5", "draft", some [], 0, none⟩, "D4", []⟩ : OrchState)
        ⟨none, none, none, none, none⟩ 1).step.status = "validated") ∧
    ((⟨⟨7, "D5", "draft", some [], 0, none⟩, "D4", []⟩ : OrchState).step.status = "draft") :=
  ⟨rfl, rfl⟩

/-- C3 amended: the full-step submit path respects the claimed machine —
from draft/rejected it can only end in validated, rejected or (after a
validation error) draft, and any other starting status is refused
unchanged — but `submit_section` either leaves the status unchanged or
sets it directly to `validated` (also from draft, without a persisted
`submitted` state), and `reject_step` / `approve_step` set `rejected` /
`validated` unconditionally from any status; `save_step_progress` never
changes the status. -/
theorem C3_statemachine_amended :
    (∀ st o now, st.step.status ∈ (["draft", "rejected"] : List String) →
        (submitStep st o now).state.step.status ∈
          (["validated", "rejected", "draft"] : List String)) ∧
    (∀ st o now, st.step.status ∉ (["draft", "rejected"] : List String) →
        (submitStep st o now).state = st) ∧
    (∀ st k o now, (submitSection st k o now).state.step.status = "validated" ∨
        (submitSection st k o now).state.step.status = st.step.status) ∧
    (∀ st k o now, st.step.status ∉ (["draft", "rejected", "submitted"] : List String) →
        (submitSection st k o now).state = st) ∧
    (∀ st reason now, (rejectStep st reason now).step.status = "rejected") ∧
    (∀ st vd now, (approveStep st vd now).step.status = "validated") ∧
    (∀ schemas st d fl now st', saveStepProgress schemas st d fl now = .ok st' →
        st'.step.status = st.step.status) := by
  refine ⟨?_, ?_, ?_, ?_, fun st reason now => rfl, fun st vd now => rfl, ?_⟩
  · intro st o now hstatus
    unfold submitStep
    rw [if_neg (not_not_intro hstatus)]
    by_cases h2 : ¬ validateRequiredFields st.step.step_code st.step.data = true
    · rw [if_pos h2]
      simp only [List.mem_cons, List.mem_singleton, List.not_mem_nil, or_false] at hstatus ⊢
      rcases hstatus with h | h
      · exact Or.inr (Or.inr h)
      · exact Or.inr (Or.inl h)
    · rw [if_neg h2]
      cases o with
      | error e => cases e <;> simp
      | ok v =>
        dsimp only
        by_cases h4 : v.decision = "pass"
        · rw [if_pos h4]
          simp
        · rw [if_neg h4]
          simp
  · intro st o now hstatus
    unfold submitStep
    rw [if_pos hstatus]
  · intro st k o now
    unfold submitSection
    by_cases h1 : st.step.status ∉ (["draft", "rejected", "submitted"] : List String)
    · rw [if_pos h1]
      exact Or.inr rfl
    · rw [if_neg h1]
      by_cases h2 : st.step.step_code = "D1"
      · rw [if_pos h2]
        exact Or.inr rfl
      · rw [if_neg h2]
        cases hs : stepSectionsOf st.step.step_code with
        | none => exact Or.inr rfl
        | some sects =>
          dsimp only
          by_cases h3 : (sects.find? (fun p => p.1 = k)).isNone = true
          · rw [if_pos h3]
            exact Or.inr rfl
          · rw [if_neg h3]
            cases o with
            | error e => cases e <;> exact Or.inr rfl
            | ok v =>
              dsimp only
              by_cases h4 : (getSectionStatus
                  (upsertSectionValidation st.rows st.step.id k v now) st.step.id
                  (get_all_section_keys st.step.step_code)).2.length = 0
              · rw [if_pos h4]
                exact Or.inl rfl
              · rw [if_neg h4]
                exact Or.inr rfl
  · intro st k o now hstatus
    unfold submitSection
    rw [if_pos hstatus]
  · intro schemas st d fl now st' h
    unfold saveStepProgress at h
    cases hn : saveNormalize schemas st.step.step_code d fl with
    | error e =>
      rw [hn] at h
      exact absurd h (by simp)
    | ok nd =>
      rw [hn] at h
      dsimp only at h
      cases h
      rfl

theorem upsertGo_find?_of_any (p : StepValidationRow → Bool)
    (upd : StepValidationRow → StepValidationRow) (nr : StepValidationRow)
    (hp : ∀ r, p r = true → p (upd r) = true) :
    ∀ rows, rows.any p = true →
    (upsertGo p upd nr rows).find? p = (rows.find? p).map upd := by
  intro rows
  induction rows with
  | nil => simp
  | cons r rest ih =>
    intro h
    by_cases hpr : p r
    · simp [upsertGo, hpr, List.find?_cons_of_pos, hp r hpr]
    · have h2 : rest.any p = true := by simpa [hpr] using h
      simp [upsertGo, hpr, List.find?_cons_of_neg, ih h2]

theorem upsertGo_forall_of_any (p : StepValidationRow → Bool)
    (upd : StepValidationRow → StepValidationRow) (nr : StepValidationRow)
    (P : StepValidationRow → Prop)
    (hupd : ∀ r, P r → P (upd r)) :
    ∀ rows, rows.any p = true → (∀ r ∈ rows, P r) →
      ∀ r ∈ upsertGo p upd nr rows, P r := by
  intro rows
  induction rows with
  | nil => simp
  | cons r rest ih =>
    intro h hall r' hr'
    by_cases hpr : p r
    · rw [upsertGo, if_pos hpr] at hr'
      rcases List.mem_cons.mp hr' with h1 | h1
      · subst h1
        exact hupd r (hall r (List.mem_cons_self r rest))
      · exact hall r' (List.mem_cons_of_mem r h1)
    · rw [upsertGo, if_neg hpr] at hr'
      rcases List.mem_cons.mp hr' with h1 | h1
      · subst h1
        exact hall r' (List.mem_cons_self r' rest)
      · have h2 : rest.any p = true := by simpa [hpr] using h
        exact ih h2 (fun x hx => hall x (List.mem_cons_of_mem r hx)) r' h1

/-- C9: the full-step validation storage path selects the first verdict
row of the step without filtering on `section_key`; on a step that has
per-section rows but no full-step row it overwrites the decision,
missing, issues, suggestions and notes of the first per-section row,
leaves that row's `section_key` intact, and inserts no new full-step
(null-key) row. -/
theorem C9_fullstep_overwrites_section_row (rows : List StepValidationRow) (sid : Nat) (v : ValidationResult)
    (now : Nat)
    (hex : rows.any (fun r => r.report_step_id = sid) = true)
    (hnonull : ∀ r ∈ rows, r.report_step_id = sid → r.section_key ≠ none) :
    (storeValidation rows sid v now).length = rows.length ∧
    (∀ r ∈ storeValidation rows sid v now, r.report_step_id = sid → r.section_key ≠ none) ∧
    (∃ r r', rows.find? (fun r => r.report_step_id = sid) = some r ∧
      (storeValidation rows sid v now).find? (fun r => r.report_step_id = sid) = some r' ∧
      r'.section_key = r.section_key ∧
      r'.decision = v.decision ∧
      r'.missing = some v.missing_fields ∧
      r'.issues = some (v.incomplete_fields ++ v.quality_issues ++ v.rules_violations) ∧
      r'.suggestions = some v.suggestions ∧
      r'.notes = some v.overall_assessment) := by
  refine ⟨?_, ?_, ?_⟩
  · exact upsertGo_length_of_any _ _ _ rows hex
  · refine upsertGo_forall_of_any _ _ _ _ ?_ rows hex hnonull
    intro r hr hrep
    exact hr hrep
  · have hsome : (rows.find? (fun r => r.report_step_id = sid)).isSome = true := by
      rw [List.find?_isSome]
      obtain ⟨x, hx, hpx⟩ := List.any_eq_true.mp hex
      exact ⟨x, hx, hpx⟩
    obtain ⟨r, hr⟩ := Option.isSome_iff_exists.mp hsome
    have hfind : (storeValidation rows sid v now).find? (fun r => r.report_step_id = sid) =
        some { r with
          decision := v.decision
          missing := some v.missing_fields
          issues := some (v.incomplete_fields ++ v.quality_issues ++ v.rules_violations)
          suggestions := some v.suggestions
          professional_rewrite := some v.field_improvements
          notes := some v.overall_assessment
          validated_at := now } := by
      unfold storeValidation
      rw [upsertGo_find?_of_any _ _ _ (fun x hx => by simpa using hx) rows hex, hr]
      rfl
    exact ⟨r, _, hr, hfind, rfl, rfl, rfl, rfl, rfl, rfl⟩

/-- C4: on full-step submit from draft/rejected, a failing
required-fields pre-check yields a 422 client error with zero validator
invocations and a completely unchanged step; and when the pre-check
passes but the validator raises, the status — which had been moved to
`submitted` — is rolled back to `draft` and a typed 500/503 error is
re-raised, with the verdict rows untouched. -/
theorem C4_precheck_and_rollback :
    (∀ st o now, st.step.status ∈ (["draft", "rejected"] : List String) →
        validateRequiredFields st.step.step_code st.step.data = false →
        (submitStep st o now).response =
          .error ⟨422, "Please fill in all required fields before continuing."⟩ ∧
        (submitStep st o now).validatorCalls = 0 ∧
        (submitStep st o now).state = st) ∧
    (∀ st e now, st.step.status ∈ (["draft", "rejected"] : List String) →
        validateRequiredFields st.step.step_code st.step.data = true →
        (submitStep st (.error e) now).state.step.status = "draft" ∧
        (submitStep st (.error e) now).validatorCalls = 1 ∧
        (submitStep st (.error e) now).state.rows = st.rows ∧
        ∃ c d, (submitStep st (.error e) now).response = .error ⟨c, d⟩ ∧
          (c = 500 ∨ c = 503)) := by
  constructor
  · intro st o now hstatus hpre
    unfold submitStep
    rw [if_neg (not_not_intro hstatus), if_pos (by simp [hpre])]
    exact ⟨rfl, rfl, rfl⟩
  · intro st e now hstatus hpre
    unfold submitStep
    rw [if_neg (not_not_intro hstatus), if_neg (by simp [hpre])]
    cases e with
    | valueError m => exact ⟨rfl, rfl, rfl, 500, _, rfl, Or.inl rfl⟩
    | runtimeError m => exact ⟨rfl, rfl, rfl, 503, _, rfl, Or.inr rfl⟩
    | other m => exact ⟨rfl, rfl, rfl, 500, _, rfl, Or.inl rfl⟩

/-- Witness for C4 at a D1 step with empty data (pre-check fails) and a
D8 step with a closure statement (pre-check passes, backend raises). -/
theorem C4_precheck_and_rollback_witness :
    ((⟨⟨3, "D1", "draft", some [], 0, none⟩, "", []⟩ : OrchState).step.status ∈
      (["draft", "rejected"] : List String) ∧
     validateRequiredFields "D1" (some []) = false ∧
     (submitStep (⟨⟨3, "D1", "draft", some [], 0, none⟩, "", []⟩ : OrchState)
        (.ok ⟨"pass", [], [], [], [], [], [], "", "en"⟩) 1).validatorCalls = 0) ∧
    (validateRequiredFields "D8"
        (some [("closure_statement", Json.str ("done"))]) = true ∧
     (submitStep (⟨⟨4, "D8", "draft", some [("closure_statement", Json.str ("done"))], 0,
        none⟩, "D7", []⟩ : OrchState)
        (.error (ChatbotExn.runtimeError ("timeout"))) 1).state.step.status = "draft") := by
  refine ⟨⟨by decide, by decide, ?_⟩, ⟨by decide, ?_⟩⟩
  · exact (C4_precheck_and_rollback.1 ⟨⟨3, "D1", "draft", some [], 0, none⟩, "", []⟩
      (.ok ⟨"pass", [], [], [], [], [], [], "", "en"⟩) 1 (by decide) (by decide)).2.1
  · exact (C4_precheck_and_rollback.2 ⟨⟨4, "D8", "draft", some [("closure_statement", Json.str ("done"))], 0,
      none⟩, "D7", []⟩ (ChatbotExn.runtimeError ("timeout")) 1 (by decide) (by decide)).1

/-- Witness for C3's amended theorem: a D8 draft step submits and ends
inside the allowed status set. -/
theorem C3_statemachine_amended_witness :
    (submitStep (⟨⟨4, "D8", "draft", some [("closure_statement", Json.str ("done"))], 0,
        none⟩, "D7", []⟩ : OrchState)
      (.ok ⟨"pass", [], [], [], [], [], [], "", "en"⟩) 1).state.step.status ∈
      (["validated", "rejected", "draft"] : List String) :=
  C3_statemachine_amended.1
    ⟨⟨4, "D8", "draft", some [("closure_statement", Json.str ("done"))], 0, none⟩, "D7", []⟩
    (.ok ⟨"pass", [], [], [], [], [], [], "", "en"⟩) 1 (by decide)

/-- Witness for C9 at a step holding exactly one per-section row. -/
theorem C9_fullstep_overwrites_section_row_witness :
    (storeValidation [⟨7, some ("five_w_2h"), "fail", none, none, none, none, none, 0⟩]
      7 ⟨"pass", [], [], [], [], [], [], "", "en"⟩ 1).length = 1 := by
  have h := C9_fullstep_overwrites_section_row
    [⟨7, some ("five_w_2h"), "fail", none, none, none, none, none, 0⟩]
    7 ⟨"pass", [], [], [], [], [], [], "", "en"⟩ 1 (by decide) (by decide)
  simpa using h.1

theorem pyLower_eq_empty_iff (s : String) : pyLower s = "" ↔ s = "" := by
  unfold pyLower
  rw [List.asString_eq, String.toList_empty, List.map_eq_nil_iff, ← String.toList_inj,
    String.toList_empty]

theorem d1Loop_leader_count (ms : D1Members) (st : D1LoopState) :
    (d1ProcessMembers st ms).leader_count = st.leader_count + leaderTotal ms := by
  induction ms generalizing st with
  | nil => simp [d1ProcessMembers, leaderTotal]
  | cons m rest ih =>
    rw [d1ProcessMembers, List.foldl_cons]
    rw [show List.foldl d1ProcessMember (d1ProcessMember st m) rest =
      d1ProcessMembers (d1ProcessMember st m) rest from rfl]
    rw [ih]
    cases m with
    | none => simp [d1ProcessMember, leaderTotal, List.countP_cons]
    | some tm =>
      by_cases hl : tm.role = "team_leader"
      · simp [d1ProcessMember, leaderTotal, List.countP_cons, hl]
        omega
      · simp [d1ProcessMember, leaderTotal, List.countP_cons, hl]

theorem d1Loop_incomplete_grows (ms : D1Members) (st : D1LoopState) :
    ∃ l, (d1ProcessMembers st ms).incomplete_fields = st.incomplete_fields ++ l := by
  induction ms generalizing st with
  | nil => exact ⟨[], by simp [d1ProcessMembers]⟩
  | cons m rest ih =>
    rw [d1ProcessMembers, List.foldl_cons]
    obtain ⟨l, hl⟩ := ih (d1ProcessMember st m)
    rw [show List.foldl d1ProcessMember (d1ProcessMember st m) rest =
      d1ProcessMembers (d1ProcessMember st m) rest from rfl] at *
    cases m with
    | none =>
      refine ⟨("Member #" ++ toString (st.idx + 1) ++ ": must be a dict/object") :: l, ?_⟩
      rw [hl]
      simp [d1ProcessMember]
    | some tm =>
      refine ⟨(REQUIRED_MEMBER_FIELDS.filterMap (fun fk =>
        if pyStrip (fk.2 tm) = "" then
          some ("Member #" ++ toString (st.idx + 1) ++ ": \x27" ++ fk.1 ++
            "\x27 is empty or missing")
        else none)) ++ l, ?_⟩
      rw [hl]
      simp [d1ProcessMember]

theorem d1Loop_good (ms : List TeamMember) (st : D1LoopState)
    (hok : ∀ m ∈ ms, memberChecksOk m)
    (hnodup : (ms.map normName).Nodup)
    (hfresh : ∀ m ∈ ms, normName m ∉ st.seen_names) :
    d1ProcessMembers st (ms.map some) =
      { idx := st.idx + ms.length
        incomplete_fields := st.incomplete_fields
        quality_issues := st.quality_issues
        field_improvements := st.field_improvements
        seen_names := st.seen_names ++ ms.map normName
        leader_count := st.leader_count +
          ms.countP (fun m => m.role = "team_leader") } := by
  induction ms generalizing st with
  | nil =>
    cases st
    simp [d1ProcessMembers]
  | cons m rest ih =>
    obtain ⟨hn, hf, hd, hr, hrole⟩ := hok m (by simp)
    have hnn : ¬ pyLower (pyStrip m.name) = "" := by
      rw [pyLower_eq_empty_iff]
      exact hn
    have hnotin : pyLower (pyStrip m.name) ∉ st.seen_names := by
      have := hfresh m (by simp)
      simpa [normName] using this
    have hall : (∀ x ∈ rest, ¬ normName x = normName m) ∧
        (List.map normName rest).Nodup := by
      simpa using hnodup
    have hstep : d1ProcessMember st (some m) =
        { idx := st.idx + 1
          incomplete_fields := st.incomplete_fields
          quality_issues := st.quality_issues
          field_improvements := st.field_improvements
          seen_names := st.seen_names ++ [normName m]
          leader_count := st.leader_count + (if m.role = "team_leader" then 1 else 0) } := by
      unfold d1ProcessMember
      have hrole2 : ¬ (m.role ≠ "" ∧ m.role ∉ VALID_ROLES) := by
        intro hcon
        exact hcon.2 hrole
      simp only [REQUIRED_MEMBER_FIELDS, List.filterMap_cons, List.filterMap_nil, hn, hf, hd,
        hr, if_neg, hrole2, normName]
      simp [hn, hf, hd, hr, hrole2, hnn, hnotin]
    rw [List.map_cons, d1ProcessMembers, List.foldl_cons, hstep]
    rw [show ∀ s ms2, List.foldl d1ProcessMember s ms2 = d1ProcessMembers s ms2
      from fun _ _ => rfl]
    rw [ih _ (fun x hx => hok x (by simp [hx])) hall.2
      (by
        intro x hx
        simp only [List.mem_append, List.mem_singleton]
        rintro (h1 | h1)
        · exact hfresh x (by simp [hx]) h1
        · exact absurd h1 (hall.1 x hx))]
    simp only [D1LoopState.mk.injEq, List.length_cons, List.countP_cons, List.append_assoc,
      List.singleton_append, List.map_cons]
    refine ⟨by omega, trivial, trivial, trivial, trivial, ?_⟩
    by_cases hl : m.role = "team_leader" <;> simp [hl] <;> omega

/-- C5 counterexample: the claim predicts `pass` for any list of 2+
members that all pass the field and role checks with exactly one
team_leader; two members whose names normalize to the same string (trim +
lowercase) satisfy all of that yet fail with a duplicate-name quality
issue. -/
theorem C5_d1_validator_counterexample :
    memberChecksOk ⟨"Alice", "QE", "Quality", "team_leader"⟩ ∧
    memberChecksOk ⟨" alice ", "Tech", "Prod", "production"⟩ ∧
    leaderTotal [some ⟨"Alice", "QE", "Quality", "team_leader"⟩,
                 some ⟨" alice ", "Tech", "Prod", "production"⟩] = 1 ∧
    (d1Validate (some [some ⟨"Alice", "QE", "Quality", "team_leader"⟩,
                       some ⟨" alice ", "Tech", "Prod", "production"⟩])).decision = "fail" ∧
    (d1Validate (some [some ⟨"Alice", "QE", "Quality", "team_leader"⟩,
                       some ⟨" alice ", "Tech", "Prod", "production"⟩])).quality_issues ≠ [] := by
  decide

/-- C5 amended: a team list of size 0 or 1 always fails; a list of 2+
members all passing the field and role checks, with exactly one
team_leader AND pairwise distinct normalized names, always passes (the
distinct-names condition is what the counterexample forces to be added);
two or more team leaders always yield a failure with a quality issue; and
zero team leaders always produce an incompleteness entry plus a
suggestion. -/
theorem C5_d1_validator_amended :
    (∀ ms : D1Members, ms.length ≤ 1 → (d1Validate (some ms)).decision = "fail") ∧
    (∀ ms : List TeamMember, 2 ≤ ms.length → (∀ m ∈ ms, memberChecksOk m) →
        ms.countP (fun m => m.role = "team_leader") = 1 →
        (ms.map normName).Nodup →
        (d1Validate (some (ms.map some))).decision = "pass") ∧
    (∀ ms : D1Members, 2 ≤ leaderTotal ms →
        (d1Validate (some ms)).decision = "fail" ∧
        (d1Validate (some ms)).quality_issues ≠ []) ∧
    (∀ ms : D1Members, leaderTotal ms = 0 →
        (d1Validate (some ms)).incomplete_fields ≠ [] ∧
        (d1Validate (some ms)).suggestions ≠ []) := by
  have hld : ∀ ms : D1Members, (d1Loop ms).leader_count = leaderTotal ms := by
    intro ms
    unfold d1Loop
    rw [d1Loop_leader_count]
    simp
  refine ⟨?_, ?_, ?_, ?_⟩
  · intro ms hlen
    show d1Decision ms = "fail"
    unfold d1Decision
    rw [if_pos]
    left
    unfold d1Incomplete d1Loop
    obtain ⟨l, hl⟩ := d1Loop_incomplete_grows ms
      { idx := 0, incomplete_fields := d1SizeIncomplete ms, quality_issues := []
        field_improvements := [], seen_names := [], leader_count := 0 }
    rw [hl]
    have hsz : d1SizeIncomplete ms =
        ["team_members: at least 2 members are required for a valid 8D team"] := by
      unfold d1SizeIncomplete
      rw [if_pos (by omega)]
    simp [hsz]
  · intro ms hlen hok hleader hnodup
    show d1Decision (ms.map some) = "pass"
    have hsz : d1SizeIncomplete (ms.map some) = [] := by
      unfold d1SizeIncomplete
      rw [if_neg (by simp; omega)]
    have hloop : d1Loop (ms.map some) =
        { idx := ms.length
          incomplete_fields := []
          quality_issues := []
          field_improvements := []
          seen_names := ms.map normName
          leader_count := 1 } := by
      unfold d1Loop
      rw [hsz]
      rw [d1Loop_good ms _ hok hnodup (by simp)]
      simp [hleader]
    unfold d1Decision d1Incomplete d1Quality d1LeaderIncomplete d1LeaderQuality
    rw [hloop]
    simp
  · intro ms hcount
    have hq : d1LeaderQuality ms ≠ [] := by
      unfold d1LeaderQuality
      rw [if_pos (by rw [hld ms]; omega)]
      simp
    have hq2 : d1Quality ms ≠ [] := by
      unfold d1Quality
      intro hcon
      exact hq (List.append_eq_nil.mp hcon).2
    refine ⟨?_, hq2⟩
    show d1Decision ms = "fail"
    unfold d1Decision
    rw [if_pos (Or.inr hq2)]
  · intro ms hcount
    by_cases hlen : 2 ≤ ms.length
    · have hli : d1LeaderIncomplete ms ≠ [] := by
        unfold d1LeaderIncomplete
        rw [if_pos ⟨by rw [hld ms, hcount], hlen⟩]
        simp
      have hls : d1LeaderSuggestions ms ≠ [] := by
        unfold d1LeaderSuggestions
        rw [if_pos ⟨by rw [hld ms, hcount], hlen⟩]
        simp
      constructor
      · show d1Incomplete ms ≠ []
        unfold d1Incomplete
        intro hcon
        exact hli (List.append_eq_nil.mp hcon).2
      · show d1Suggestions ms ≠ []
        unfold d1Suggestions
        intro hcon
        exact hls (List.append_eq_nil.mp hcon).2
    · have hsz : d1SizeIncomplete ms =
          ["team_members: at least 2 members are required for a valid 8D team"] := by
        unfold d1SizeIncomplete
        rw [if_pos (by omega)]
      constructor
      · show d1Incomplete ms ≠ []
        unfold d1Incomplete d1Loop
        obtain ⟨l, hl⟩ := d1Loop_incomplete_grows ms
          { idx := 0, incomplete_fields := d1SizeIncomplete ms, quality_issues := []
            field_improvements := [], seen_names := [], leader_count := 0 }
        rw [hl]
        simp [hsz]
      · show d1Suggestions ms ≠ []
        unfold d1Suggestions d1SizeSuggestions
        rw [if_pos (by omega)]
        simp

/-- Witness for C5's amended pass case on a concrete two-member team. -/
theorem C5_d1_validator_amended_witness :
    (d1Validate (some (([⟨"Alice", "QE", "Quality", "team_leader"⟩,
        ⟨"Bob", "Tech", "Prod", "production"⟩] : List TeamMember).map some))).decision =
      "pass" :=
  C5_d1_validator_amended.2.1 [⟨"Alice", "QE", "Quality", "team_leader"⟩,
      ⟨"Bob", "Tech", "Prod", "production"⟩]
    (by decide) (by decide) (by decide) (by decide)

theorem dropWhile_append_of_all {α : Type} (p : α → Bool) (l1 l2 : List α)
    (h : ∀ a ∈ l1, p a = true) : (l1 ++ l2).dropWhile p = l2.dropWhile p := by
  induction l1 with
  | nil => rfl
  | cons a l ih =>
    rw [List.cons_append, List.dropWhile_cons, if_pos (h a (by simp))]
    exact ih (fun x hx => h x (by simp [hx]))

theorem extractSpan_sandwich (p mid q : List Char)
    (hp : ∀ c ∈ p, c ≠ '{') (hq : ∀ c ∈ q, c ≠ '}') :
    extractSpan (p ++ ('{' :: mid ++ ['}']) ++ q) = some ('{' :: mid ++ ['}']) := by
  induction p with
  | cons a p' ih =>
    rw [List.cons_append, List.cons_append, extractSpan.eq_def]
    dsimp only
    rw [if_neg (fun hcon => hp a (by simp) hcon.1)]
    exact ih (fun c hc => hp c (by simp [hc]))
  | nil =>
    rw [List.nil_append, List.cons_append]
    show (if '{' = '{' ∧ ((mid ++ ['}']) ++ q).contains '}' = true then
        some ('{' :: takeToLastRBrace ((mid ++ ['}']) ++ q))
      else extractSpan ((mid ++ ['}']) ++ q)) = some ('{' :: (mid ++ ['}']))
    rw [if_pos]
    · congr 1
      unfold takeToLastRBrace
      rw [List.reverse_append, List.reverse_append]
      have h1 : (q.reverse ++ (['}'].reverse ++ mid.reverse)).dropWhile (fun c => c ≠ '}') =
          (['}'].reverse ++ mid.reverse).dropWhile (fun c => c ≠ '}') := by
        refine dropWhile_append_of_all _ _ _ ?_
        intro c hc
        simpa using hq c (by simpa using hc)
      rw [h1]
      rw [show (['}'].reverse ++ mid.reverse).dropWhile (fun c => c ≠ '}') =
        '}' :: mid.reverse from by simp [List.dropWhile_cons]]
      simp
    · constructor
      · rfl
      · simp

/-- C6: a body that is exactly the JSON object with only a pass decision
parses to a verdict with decision `pass` and every other field at its
empty default; a JSON-object body whose decision value is anything but
exactly the strings `pass`/`fail` (other strings, non-strings, or absent)
raises the typed malformed-response `ValueError`; and a single `{...}`
block wrapped in brace-free prose before and after is recovered via the
first-balanced-span regex, making the parse agree with parsing the bare
block (hence succeed whenever the bare block parses to a verdict). -/
theorem C6_response_parsing :
    (responseParse ("\x7b\"decision\": \"pass\"\x7d") =
      .ok ⟨"pass", .arr [], .arr [], .arr [], .arr [], .arr [], .obj [],
           .str (""), .str ("en")⟩) ∧
    (∀ (cs : List Char) (kvs : List (String × Json)),
        jsonParseL cs = some (.obj kvs) →
        (¬ ∃ d, jObjGet kvs ("decision") = some (.str d) ∧ (d = "pass" ∨ d = "fail")) →
        responseParseL cs = .error (PyErr.valueError ("Invalid or missing decision field"))) ∧
    (∀ (p mid q : List Char) (j : Json),
        (∀ c ∈ p, c ≠ '{') → (∀ c ∈ q, c ≠ '}') →
        jsonParseL (p ++ ('{' :: mid ++ ['}']) ++ q) = none →
        jsonParseL ('{' :: mid ++ ['}']) = some j →
        responseParseL (p ++ ('{' :: mid ++ ['}']) ++ q) =
          responseParseL ('{' :: mid ++ ['}'])) := by
  refine ⟨by rfl, ?_, ?_⟩
  · intro cs kvs hparse hdec
    unfold responseParseL
    rw [hparse]
    dsimp only
    cases hget : jObjGet kvs ("decision") with
    | none => rfl
    | some jv =>
      cases jv with
      | str d =>
        dsimp only
        rw [if_neg]
        intro hcon
        exact hdec ⟨d, hget, hcon⟩
      | null => rfl
      | bool b => rfl
      | num n => rfl
      | arr l => rfl
      | obj o => rfl
  · intro p mid q j hp hq hdir hcj
    unfold responseParseL
    rw [hdir, extractSpan_sandwich p mid q hp hq]
    dsimp only
    rw [hcj]

/-- Witness for C6 on a `maybe` decision and on a prose-wrapped block. -/
theorem C6_response_parsing_witness :
    responseParseL (("\x7b\"decision\": \"maybe\"\x7d").toList) =
      .error (PyErr.valueError ("Invalid or missing decision field")) ∧
    responseParseL ((("Sure: ").toList) ++ ('{' :: (("\"decision\": \"fail\"").toList) ++ ['}']) ++
        ((" Done.").toList)) =
      responseParseL ('{' :: (("\"decision\": \"fail\"").toList) ++ ['}']) := by
  constructor
  · refine C6_response_parsing.2.1 (("\x7b\"decision\": \"maybe\"\x7d").toList)
      [("decision", Json.str ("maybe"))] (by rfl) ?_
    rintro ⟨d, hd, hval⟩
    have h2 : (some (Json.str ("maybe")) : Option Json) = some (Json.str d) := hd
    injection h2 with h3
    injection h3 with h4
    rw [← h4] at hval
    rcases hval with h | h <;> exact absurd h (by decide)
  · exact C6_response_parsing.2.2 (("Sure: ").toList) (("\"decision\": \"fail\"").toList)
      ((" Done.").toList) (Json.obj [("decision", Json.str ("fail"))])
      (by decide) (by decide) (by rfl) (by rfl)

/-- C7 counterexample: the claim says that when the coaching store has no
content for the given key, validation fails hard; but for the section key
`D2_five_w_2h` — whose scoped hint has no content — the retriever falls
back to the parent step code `D2` and returns that coaching instead of
raising. -/
theorem C7_coaching_counterexample :
    ((fun h => if h = "D2_coaching_validation" then some ("PARENT") else none : KbStore)
      ("D2_five_w_2h_coaching_validation") = none) ∧
    get_step_coaching_content
      (fun h => if h = "D2_coaching_validation" then some ("PARENT") else none)
      ("D2_five_w_2h") = .ok ("PARENT") := by
  exact ⟨rfl, rfl⟩

/-- C7 amended: coaching retrieval raises a hard typed `ValueError` only
when BOTH the scoped key and (for section-scoped codes) the parent step
code have no non-empty coaching content; a missing section-specific entry
with a present parent entry falls back to the parent's coaching (never a
blank section); and a missing floor-compliance-rules text is a soft
fallback to the empty string. -/
theorem C7_coaching_retrieval_amended :
    (∀ (kb : KbStore) (code : String),
        kbHas (kb (code ++ "_coaching_validation")) = false →
        (parentCode code = code ∨
          kbHas (kb (parentCode code ++ "_coaching_validation")) = false) →
        get_step_coaching_content kb code =
          .error ("No coaching content found for " ++ code ++ " (hint: " ++
                  (code ++ "_coaching_validation") ++ ")")) ∧
    (∀ (kb : KbStore) (code c : String),
        kbHas (kb (code ++ "_coaching_validation")) = false →
        parentCode code ≠ code →
        kb (parentCode code ++ "_coaching_validation") = some c → c ≠ "" →
        get_step_coaching_content kb code = .ok c) ∧
    (∀ kb : KbStore, kbHas (kb ("floor_rules_guidelines")) = false →
        get_twenty_rules kb = "") := by
  refine ⟨?_, ?_, ?_⟩
  · intro kb code h1 h2
    unfold get_step_coaching_content
    rw [if_neg (by simp [h1])]
    rw [if_neg (by
      rintro ⟨hne, hhas⟩
      rcases h2 with h | h
      · exact hne h
      · rw [h] at hhas
        exact absurd hhas (by simp))]
  · intro kb code c h1 h2 h3 h4
    unfold get_step_coaching_content
    rw [if_neg (by simp [h1])]
    rw [if_pos ⟨h2, by simp [h3, kbHas, h4]⟩]
    simp [h3]
  · intro kb h1
    unfold get_twenty_rules
    rw [if_neg (by simp [h1])]

/-- Witness for C7's amended theorem on an empty knowledge store. -/
theorem C7_coaching_retrieval_amended_witness :
    get_step_coaching_content (fun _ => none) ("D3") =
      .error ("No coaching content found for " ++ "D3" ++ " (hint: " ++
        ("D3" ++ "_coaching_validation") ++ ")") ∧
    get_twenty_rules (fun _ => none) = "" := by
  constructor
  · exact C7_coaching_retrieval_amended.1 (fun _ => none) ("D3") (by rfl) (Or.inl (by rfl))
  · exact C7_coaching_retrieval_amended.2.2 (fun _ => none) (by rfl)

theorem jLookup_cons_ne (kv : String × Json) (rest : List (String × Json)) (k : String)
    (hk : ¬ kv.1 = k) : jLookup (kv :: rest) k = jLookup rest k := by
  rw [jLookup]
  cases h : jLookup rest k <;> simp [hk]

theorem jLookup_cons_eq (kv : String × Json) (rest : List (String × Json)) (k : String)
    (hk : kv.1 = k) : jLookup (kv :: rest) k = some ((jLookup rest k).getD kv.2) := by
  rw [jLookup]
  cases h : jLookup rest k <;> simp [hk]

theorem jLookup_append (xs ys : List (String × Json)) (k : String) :
    jLookup (xs ++ ys) k =
      match jLookup ys k with
      | some v => some v
      | none => jLookup xs k := by
  induction xs with
  | nil =>
    cases h : jLookup ys k <;> simp [jLookup, h]
  | cons kv rest ih =>
    by_cases hk : kv.1 = k
    · rw [List.cons_append, jLookup_cons_eq _ _ _ hk, jLookup_cons_eq _ _ _ hk, ih]
      cases h : jLookup ys k <;> cases h2 : jLookup rest k <;> simp
    · rw [List.cons_append, jLookup_cons_ne _ _ _ hk, jLookup_cons_ne _ _ _ hk, ih]

theorem jLookup_mapMerge (a b : List (String × Json)) (k : String) :
    jLookup (a.map (fun kv => (kv.1, (jLookup b kv.1).getD kv.2))) k =
      match jLookup a k with
      | some v => some ((jLookup b k).getD v)
      | none => none := by
  induction a with
  | nil => simp [jLookup]
  | cons kv rest ih =>
    by_cases hk : kv.1 = k
    · rw [List.map_cons,
        jLookup_cons_eq ((kv.1, (jLookup b kv.1).getD kv.2))
          (rest.map (fun kv => (kv.1, (jLookup b kv.1).getD kv.2))) k hk,
        jLookup_cons_eq kv rest k hk, ih]
      subst hk
      cases h2 : jLookup rest kv.1 <;> simp
    · rw [List.map_cons,
        jLookup_cons_ne ((kv.1, (jLookup b kv.1).getD kv.2))
          (rest.map (fun kv => (kv.1, (jLookup b kv.1).getD kv.2))) k hk,
        jLookup_cons_ne kv rest k hk, ih]

theorem jLookup_filter_isNone (a b : List (String × Json)) (k : String) :
    jLookup (b.filter (fun kv => (jLookup a kv.1).isNone)) k =
      if (jLookup a k).isNone = true then jLookup b k else none := by
  induction b with
  | nil => simp [jLookup]
  | cons kv rest ih =>
    rw [List.filter_cons]
    by_cases hk : kv.1 = k
    · subst hk
      by_cases ha : (jLookup a kv.1).isNone = true
      · rw [if_pos ha, jLookup_cons_eq kv _ kv.1 rfl, ih, if_pos ha, if_pos ha,
          jLookup_cons_eq kv rest kv.1 rfl]
      · rw [if_neg ha, ih, if_neg ha, if_neg ha]
    · by_cases hq : (jLookup a kv.1).isNone = true
      · rw [if_pos hq, jLookup_cons_ne kv _ k hk, ih]
        by_cases ha : (jLookup a k).isNone = true
        · rw [if_pos ha, if_pos ha, jLookup_cons_ne kv rest k hk]
        · rw [if_neg ha, if_neg ha]
      · rw [if_neg hq, ih]
        by_cases ha : (jLookup a k).isNone = true
        · rw [if_pos ha, if_pos ha, jLookup_cons_ne kv rest k hk]
        · rw [if_neg ha, if_neg ha]

/-- The key property of the Python dict merge: a key supplied by the
payload takes the payload's value, every other key keeps the stored
value. -/
theorem jLookup_dictMerge (a b : List (String × Json)) (k : String) :
    jLookup (dictMerge a b) k =
      match jLookup b k with
      | some v => some v
      | none => jLookup a k := by
  unfold dictMerge
  rw [jLookup_append, jLookup_filter_isNone, jLookup_mapMerge]
  by_cases ha : (jLookup a k).isNone = true
  · rw [if_pos ha]
    have ha2 : jLookup a k = none := Option.isNone_iff_eq_none.mp ha
    rw [ha2]
  · rw [if_neg ha]
    have ha2 : ∃ w, jLookup a k = some w := by
      cases h : jLookup a k
      · rw [h] at ha
        exact absurd rfl ha
      · exact ⟨_, rfl⟩
    obtain ⟨w, hw⟩ := ha2
    rw [hw]
    cases hb : jLookup b k <;> simp

/-- C8 amended: `save_step_progress` succeeds for every existing step
regardless of its current status whenever schema normalization accepts
the payload, changes nothing besides `data` and `updated_at` (status,
verdict rows, complaint status, code, id and completed_at are all
untouched), and merges at top level so that every key of the
SCHEMA-NORMALIZED payload overwrites the stored value while all other
stored keys are untouched.  Because Pydantic's `model_dump` re-emits
every schema field (defaults included), the normalized payload covers all
schema-defined keys, not only the keys the caller supplied — which is
what the counterexample exhibits. -/
theorem C8_save_progress_amended (schemas : SchemaMap) (st : OrchState)
    (payload : List (String × Json)) (vflag : Bool) (now : Nat)
    (nd : List (String × Json))
    (hnorm : saveNormalize schemas st.step.step_code payload vflag = .ok nd) :
    ∃ st', saveStepProgress schemas st payload vflag now = .ok st' ∧
      st'.step.status = st.step.status ∧
      st'.rows = st.rows ∧
      st'.complaint_status = st.complaint_status ∧
      st'.step.step_code = st.step.step_code ∧
      st'.step.id = st.step.id ∧
      st'.step.completed_at = st.step.completed_at ∧
      st'.step.updated_at = now ∧
      (∀ k, jLookup ((st'.step.data).getD []) k =
        match jLookup nd k with
        | some v => some v
        | none => jLookup ((st.step.data).getD []) k) := by
  refine ⟨{ st with step := { st.step with
      data := some (dictMerge ((st.step.data).getD []) nd), updated_at := now } },
    ?_, rfl, rfl, rfl, rfl, rfl, rfl, rfl, ?_⟩
  · unfold saveStepProgress
    rw [hnorm]
  · intro k
    show jLookup (dictMerge ((st.step.data).getD []) nd) k = _
    rw [jLookup_dictMerge]

/-- C8 counterexample: the claim says save overwrites ONLY the supplied
top-level keys and leaves all others untouched.  Saving the payload
`\x7b"unrelated": 1\x7d` to a validated D1 step whose stored data has a
non-empty `team_members`: Pydantic validation ignores the unknown key and
`model_dump` re-emits `team_members` at its default `[]`, so the stored
`team_members` (NOT supplied) is overwritten with `[]` while the supplied
key `unrelated` is never written at all; the save still succeeds on a
validated step and leaves its status alone. -/
theorem C8_save_progress_counterexample :
    ∃ st', saveStepProgress STEP_SCHEMAS_D1
        (⟨⟨7, "D1", "validated",
           some [("team_members", Json.arr [Json.obj [("name", Json.str ("Alice")),
             ("function", Json.str ("QE")), ("department", Json.str ("Q")),
             ("role", Json.str ("team_leader"))]]), ("extra", Json.str ("keep"))],
           0, none⟩, "D1", []⟩ : OrchState)
        [("unrelated", Json.num 1)] true 5 = .ok st' ∧
      jLookup ((st'.step.data).getD []) ("team_members") = some (Json.arr []) ∧
      jLookup ((st'.step.data).getD []) ("unrelated") = none ∧
      jLookup ((st'.step.data).getD []) ("extra") = some (Json.str ("keep")) ∧
      st'.step.status = "validated" := by
  exact ⟨_, rfl, rfl, rfl, rfl, rfl⟩

/-- Witness for C8's amended theorem: a save on a validated D2 step (no
schema registered in the model map) succeeds. -/
theorem C8_save_progress_amended_witness :
    ∃ st', saveStepProgress STEP_SCHEMAS_D1
      (⟨⟨7, "D2", "validated", some [], 0, none⟩, "D1", []⟩ : OrchState)
      [("problem_description", Json.str ("x"))] true 5 = .ok st' := by
  obtain ⟨st', h, _⟩ := C8_save_progress_amended STEP_SCHEMAS_D1
    (⟨⟨7, "D2", "validated", some [], 0, none⟩, "D1", []⟩ : OrchState)
    [("problem_description", Json.str ("x"))] true 5
    [("problem_description", Json.str ("x"))] rfl
  exact ⟨st', h⟩
